import Mathlib

/-!
Verification development for the VERIFICADORCARTAPORTE repository
(`utils.py`, `xml_processor.py`, `pdf_handler.py`).

The XML documents the program reads are modelled as ordered trees of
elements carrying a namespace-qualified tag and an attribute list, matching
what `xml.etree.ElementTree` exposes of a parsed file.  A file on disk is
either malformed (then `ET.parse` raises `ParseError`) or parses to a root
element.  Python floats are modelled as exact rationals: every numeric
literal the program handles is decimal, and no claim depends on binary
rounding of an IEEE double.
-/

namespace Carta

attribute [local semireducible] Rat.mul Rat.add Rat.sub Rat.inv Rat.ofScientific

/-- Namespace-qualified XML tag, as ElementTree resolves `ns:Name`
against a namespace map: the pair of the namespace URI and the local name. -/
structure Tag where
  ns : String
  name : String
deriving DecidableEq, Repr

mutual
/-- An XML element: tag, attribute dictionary (keys are unique in XML,
modelled as an association list), and the child elements in document order. -/
inductive Element where
  | mk (tag : Tag) (attrib : List (String × String)) (children : ElementList)

/-- Sibling list of elements, kept mutual with `Element` so that tree
recursion is structural. -/
inductive ElementList where
  | nil
  | cons (head : Element) (tail : ElementList)
end

def ElementList.ofList : List Element → ElementList
  | [] => .nil
  | c :: cs => .cons c (ElementList.ofList cs)

def Element.tag : Element → Tag
  | .mk t _ _ => t

def Element.attrib : Element → List (String × String)
  | .mk _ a _ => a

def Element.children : Element → ElementList
  | .mk _ _ c => c

mutual

/-- Proper descendants of an element in document (pre)order. -/
def Element.descendants : Element → List Element
  | .mk _ _ cs => descendantsList cs

/-- All elements of a sibling list together with all their descendants, in
document (pre)order.  Applied to the children of a root, this is the node
sequence ElementTree's `.//` descendant search scans. -/
def descendantsList : ElementList → List Element
  | .nil => []
  | .cons c cs => c :: (c.descendants ++ descendantsList cs)
end

/-- Model of `root.findall('.//ns:Tag', namespaces=...)`: every proper
descendant of `e` whose resolved tag is `t`, in document order. -/
def Element.findall (e : Element) (t : Tag) : List Element :=
  (descendantsList e.children).filter (fun d => d.tag = t)

/-- Model of `root.find('.//ns:Tag', namespaces=...)`: the first match in
document order, if any. -/
def Element.find (e : Element) (t : Tag) : Option Element :=
  (e.findall t).head?

/-- Model of `element.attrib.get(key)` (default `None`). -/
def Element.attrGet (e : Element) (k : String) : Option String :=
  (e.attrib.find? (fun p => p.1 = k)).map Prod.snd

/-- Model of `element.attrib.get(key, d)`. -/
def Element.attrGetD (e : Element) (k : String) (d : String) : String :=
  (e.attrGet k).getD d

/-! Namespace URIs and the qualified tags the program searches for
(`xml_processor.py`). -/

def nsCFDI : String := "http://www.sat.gob.mx/cfd/4"

def nsCP20 : String := "http://www.sat.gob.mx/CartaPorte20"

def nsCP30 : String := "http://www.sat.gob.mx/CartaPorte30"

def nsCP31 : String := "http://www.sat.gob.mx/CartaPorte31"

def conceptoTag : Tag := ⟨nsCFDI, "Concepto"⟩

def mercanciaTag20 : Tag := ⟨nsCP20, "Mercancia"⟩

def mercanciaTag30 : Tag := ⟨nsCP30, "Mercancia"⟩

def mercanciaTag31 : Tag := ⟨nsCP31, "Mercancia"⟩

def cantidadTransportaTag30 : Tag := ⟨nsCP30, "CantidadTransporta"⟩

def cantidadTransportaTag31 : Tag := ⟨nsCP31, "CantidadTransporta"⟩

/-! utils.py -/

/-- Numeric value of a list of decimal digit characters. -/
def pyDigitsVal (l : List Char) : Nat :=
  l.foldl (fun n c => 10 * n + (c.toNat - 48)) 0

/-- Decimal digit test, stated on code points (48–57) so that it composes
with `pyDigitsVal`. -/
def pyIsDigit (c : Char) : Bool :=
  48 ≤ c.toNat ∧ c.toNat ≤ 57

/-- The characters `float()` treats as strippable whitespace, by code point
(space, tab, newline, carriage return, vertical tab, form feed). -/
def isPySpace (c : Char) : Bool :=
  c.toNat = 32 ∨ c.toNat = 9 ∨ c.toNat = 10 ∨ c.toNat = 13 ∨ c.toNat = 11 ∨ c.toNat = 12

/-- Leading and trailing whitespace removed, as `float()` does to its
string argument. -/
def pyStrip (cs : List Char) : List Char :=
  ((cs.dropWhile isPySpace).reverse.dropWhile isPySpace).reverse

/-- Leading sign of a Python numeric literal: `(isNegative, rest)`. -/
def parseSign (cs : List Char) : Bool × List Char :=
  match cs with
  | [] => (false, [])
  | c :: rest => if c = '+' then (false, rest) else if c = '-' then (true, rest) else (false, cs)

def applySign (neg : Bool) (q : ℚ) : ℚ := if neg then -q else q

/-- Optional exponent tail `e±ddd` of a float literal applied to a mantissa. -/
def parseExpTail (cs : List Char) (mant : ℚ) : Option ℚ :=
  match cs with
  | [] => some mant
  | c :: rest =>
    if c = 'e' ∨ c = 'E' then
      let s := parseSign rest
      let d := s.2.span pyIsDigit
      if d.1 = [] ∨ d.2 ≠ [] then none
      else some (if s.1 then mant / 10 ^ pyDigitsVal d.1 else mant * 10 ^ pyDigitsVal d.1)
    else none

/-- Exact rational value of an unsigned finite decimal literal: digits with
an optional fractional part (at least one digit overall) and an optional
decimal exponent.  This is the numeric core of the `float()` model and the
denotation used to state what a rendered numeral means. -/
def decimalTail (cs : List Char) : Option ℚ :=
  let ip := cs.span pyIsDigit
  match ip.2 with
  | '.' :: cs3 =>
    let fp := cs3.span pyIsDigit
    if ip.1 = [] ∧ fp.1 = [] then none
    else parseExpTail fp.2 ((pyDigitsVal ip.1 : ℚ) + (pyDigitsVal fp.1 : ℚ) / 10 ^ fp.1.length)
  | _ =>
    if ip.1 = [] then none
    else parseExpTail ip.2 (pyDigitsVal ip.1 : ℚ)

/-- Exact decimal reading of a whole string: strip, optional sign, finite
decimal literal.  `decValOfString (fmt3 q)` is the value a rendered
3-decimal numeral denotes. -/
def decValOfString (s : String) : Option ℚ :=
  let cs := pyStrip s.toList
  let sg := parseSign cs
  (decimalTail sg.2).map (applySign sg.1)

/-- A Python float: a finite value (modelled as the exact rational of its
decimal source), one of the two infinities, or NaN. -/
inductive PyFloat where
  | finite (q : ℚ)
  | inf
  | negInf
  | nan
deriving DecidableEq, Repr

instance (n : Nat) : OfNat PyFloat n := ⟨.finite (OfNat.ofNat n)⟩

def PyFloat.isFinite : PyFloat → Bool
  | .finite _ => true
  | _ => false

/-- IEEE-754 subtraction lifted to the model: `inf - inf` is NaN and NaN
propagates. -/
def PyFloat.sub : PyFloat → PyFloat → PyFloat
  | .nan, _ => .nan
  | _, .nan => .nan
  | .finite x, .finite y => .finite (x - y)
  | .finite _, .inf => .negInf
  | .finite _, .negInf => .inf
  | .inf, .inf => .nan
  | .inf, _ => .inf
  | .negInf, .negInf => .nan
  | .negInf, _ => .negInf

/-- `abs` on a Python float. -/
def PyFloat.absf : PyFloat → PyFloat
  | .finite q => .finite |q|
  | .nan => .nan
  | _ => .inf

/-- IEEE `<`: every comparison against NaN is false. -/
def PyFloat.ltB : PyFloat → PyFloat → Bool
  | .nan, _ => false
  | _, .nan => false
  | .finite x, .finite y => x < y
  | .finite _, .inf => true
  | .finite _, .negInf => false
  | .inf, _ => false
  | .negInf, .negInf => false
  | .negInf, _ => true

/-- Case-insensitive comparison against a lowercase keyword, by code
point. -/
def eqCaseless : List Char → List Char → Bool
  | [], [] => true
  | c :: cs, k :: ks => (c.toNat = k.toNat ∨ c.toNat = k.toNat - 32) && eqCaseless cs ks
  | _, _ => false

/-- Digit-group underscores of a Python numeric literal removed; `none`
when some underscore is not between two digits (then `float()` raises). -/
def stripUnderscores : List Char → Option (List Char)
  | [] => some []
  | '_' :: _ => none
  | [c] => some [c]
  | c :: '_' :: d :: rest =>
    if pyIsDigit c ∧ pyIsDigit d then (stripUnderscores (d :: rest)).map (c :: ·)
    else none
  | c :: d :: rest => (stripUnderscores (d :: rest)).map (c :: ·)

/-- Overflow threshold of binary64 round-to-nearest: decimal magnitudes of
at least `2^1024 - 2^970` convert to an infinity.  Written as a numeral so
that it evaluates without unfolding the power; `floatOverflowThreshold_eq`
certifies the value. -/
def floatOverflowThreshold : ℚ :=
  ((179769313486231580793728971405303415079934132710037826936173778980444968292764750946649017977587207096330286416692887910946555547851940402630657488671505820681908902000708383676273854845817711531764475730270069855571366959622842914819860834936475292719074168444365510704342711559699508093042880177904174497792 : ℕ) : ℚ)

/-- Model of Python's built-in `float()` on a string: leading/trailing
whitespace stripped, an optional sign, then either a caseless `inf`,
`infinity` or `nan` keyword, or a decimal literal (digit-group underscores
allowed) whose magnitude saturates to an infinity at the binary64
overflow threshold.  Returns `none` exactly when `float()` raises
`ValueError`.  Model boundary: finite values are the exact rationals of
their decimal source rather than their nearest binary64 double; gradual
underflow and the clamp to the largest double just below the overflow
threshold are not modelled. -/
def pyFloatOfString (s : String) : Option PyFloat :=
  let cs := pyStrip s.toList
  let sg := parseSign cs
  if eqCaseless sg.2 ['i', 'n', 'f'] || eqCaseless sg.2 ['i', 'n', 'f', 'i', 'n', 'i', 't', 'y'] then
    some (if sg.1 then .negInf else .inf)
  else if eqCaseless sg.2 ['n', 'a', 'n'] then
    some .nan
  else
    match stripUnderscores sg.2 with
    | none => none
    | some ds =>
      match decimalTail ds with
      | none => none
      | some q =>
        if floatOverflowThreshold ≤ q then some (if sg.1 then .negInf else .inf)
        else some (.finite (applySign sg.1 q))

/-- `parse_float` (utils.py): `float(value)` with `ValueError`/`TypeError`
mapped to `0.0`.  The argument is `Option String` because callers pass the
value of a dict entry that may be `None`; `float(None)` raises `TypeError`. -/
def parse_float (value : Option String) : PyFloat :=
  match value with
  | none => 0
  | some s =>
    match pyFloatOfString s with
    | some x => x
    | none => 0

/-- Rounding of a rational to the nearest integer with ties to even, the
rounding IEEE-correct decimal formatting of a representable value
performs. -/
def roundQ (q : ℚ) : ℤ :=
  let f := Int.fdiv q.num q.den
  let r2 := 2 * (q.num - f * q.den)
  if r2 < (q.den : ℤ) then f
  else if (q.den : ℤ) < r2 then f + 1
  else if f % 2 = 0 then f else f + 1

/-- Big-endian decimal digits of a natural number; the first argument is
structural fuel, sufficient whenever `n < 10 ^ fuel`. -/
def natDecAux : Nat → Nat → List Char
  | 0, _ => []
  | fuel + 1, n =>
    if n < 10 then [Nat.digitChar n]
    else natDecAux fuel (n / 10) ++ [Nat.digitChar (n % 10)]

/-- Standard decimal rendering of a natural number (as `str` prints it). -/
def natDecString (n : Nat) : String :=
  ⟨natDecAux (n + 1) n⟩

/-- Model of the f-string `f"{x:.3f}"` on a finite value: the value rounded
to 3 decimal places with ties to even and rendered with a minus sign, the
integer part, a dot and exactly three digit characters. -/
def fmt3 (q : ℚ) : String :=
  let n : ℤ := roundQ (q * 1000)
  let m := n.natAbs
  (if n < 0 then "-" else "") ++ natDecString (m / 1000) ++ "." ++
    String.mk [Nat.digitChar (m / 100 % 10), Nat.digitChar (m / 10 % 10), Nat.digitChar (m % 10)]

/-- `f"{x:.3f}"` on a Python float: infinities and NaN print as `inf`,
`-inf` and `nan`; finite values print with exactly three decimals. -/
def fmt3f : PyFloat → String
  | .finite q => fmt3 q
  | .inf => "inf"
  | .negInf => "-inf"
  | .nan => "nan"

/-- `format_and_compare_liters` (utils.py).  Arguments are `Option String`:
`process_xml_format2`/`process_xml_format31` pass dict values that may be
`None`, and `parse_float` absorbs that case.  The comparison applies
`abs(a - b) < 1e-9` under IEEE float semantics. -/
def format_and_compare_liters (facturada_str transportada_str : Option String) :
    String × String × String :=
  let facturada_val := parse_float facturada_str
  let transportada_val := parse_float transportada_str
  let facturada_fmt := fmt3f facturada_val
  let transportada_fmt := fmt3f transportada_val
  let comparacion :=
    if PyFloat.ltB (PyFloat.absf (PyFloat.sub facturada_val transportada_val))
        (.finite (1 / 1000000000)) then "Iguales" else "Diferentes"
  (facturada_fmt, transportada_fmt, comparacion)

/-- The fixed clave-SAT table of `map_clave_to_combustible` (utils.py). -/
def combustibleMapping : List (String × String) :=
  [("15101514", "magna"), ("15101515", "premium"), ("15101505", "diesel")]

/-- `map_clave_to_combustible` (utils.py): `mapping.get(clave_prod_serv)`,
`none` for an unknown code. -/
def map_clave_to_combustible (clave_prod_serv : String) : Option String :=
  (combustibleMapping.find? (fun p => p.1 = clave_prod_serv)).map Prod.snd

/-- Python's `x or d` for `x` a string-or-`None` dict value: `None` and the
empty string are falsy and give `d`. -/
def pyOrDefault (v : Option String) (d : String) : String :=
  match v with
  | none => d
  | some s => if s = "" then d else s

/-! Model of `datetime.fromisoformat` (the `datetime` values
`extract_common_data` builds). -/

structure PyDateTime where
  year : Nat
  month : Nat
  day : Nat
  hour : Nat
  minute : Nat
  second : Nat
deriving DecidableEq, Repr

def isLeapYear (y : Nat) : Bool :=
  (y % 4 = 0 ∧ y % 100 ≠ 0) ∨ y % 400 = 0

def daysInMonth (y m : Nat) : Nat :=
  if m = 2 then (if isLeapYear y then 29 else 28)
  else if m = 4 ∨ m = 6 ∨ m = 9 ∨ m = 11 then 30
  else 31

/-- Time-of-day tail `HH:MM` or `HH:MM:SS` of an ISO-8601 string. -/
def parseTimeOfDay : List Char → Option (Nat × Nat × Nat)
  | [h1, h2, ':', m1, m2] =>
    if h1.isDigit ∧ h2.isDigit ∧ m1.isDigit ∧ m2.isDigit then
      let h := pyDigitsVal [h1, h2]
      let mi := pyDigitsVal [m1, m2]
      if h ≤ 23 ∧ mi ≤ 59 then some (h, mi, 0) else none
    else none
  | [h1, h2, ':', m1, m2, ':', s1, s2] =>
    if h1.isDigit ∧ h2.isDigit ∧ m1.isDigit ∧ m2.isDigit ∧ s1.isDigit ∧ s2.isDigit then
      let h := pyDigitsVal [h1, h2]
      let mi := pyDigitsVal [m1, m2]
      let se := pyDigitsVal [s1, s2]
      if h ≤ 23 ∧ mi ≤ 59 ∧ se ≤ 59 then some (h, mi, se) else none
    else none
  | _ => none

/-- Model of `datetime.fromisoformat`: strict `YYYY-MM-DD`, optionally
followed by a one-character separator and a time of day; `none` exactly when
Python raises `ValueError`.  Field ranges are validated (month 1–12, day
within the month, year ≥ 1, hour ≤ 23, minute/second ≤ 59).  Fractional
seconds and timezone offsets are outside the date strings this program's
documents carry. -/
def datetime_fromisoformat (s : String) : Option PyDateTime :=
  match s.toList with
  | y1 :: y2 :: y3 :: y4 :: '-' :: m1 :: m2 :: '-' :: d1 :: d2 :: rest =>
    if y1.isDigit ∧ y2.isDigit ∧ y3.isDigit ∧ y4.isDigit ∧ m1.isDigit ∧ m2.isDigit ∧
        d1.isDigit ∧ d2.isDigit then
      let y := pyDigitsVal [y1, y2, y3, y4]
      let mo := pyDigitsVal [m1, m2]
      let d := pyDigitsVal [d1, d2]
      if 1 ≤ y ∧ 1 ≤ mo ∧ mo ≤ 12 ∧ 1 ≤ d ∧ d ≤ daysInMonth y mo then
        match rest with
        | [] => some ⟨y, mo, d, 0, 0, 0⟩
        | _ :: t =>
          match parseTimeOfDay t with
          | some hms => some ⟨y, mo, d, hms.1, hms.2.1, hms.2.2⟩
          | none => none
      else none
    else none
  | _ => none

/-! xml_processor.py -/

/-- The dict shape every processing function of `xml_processor.py` builds:
the keys written by `extract_common_data` and filled in by the extractors.
`Option` fields are the entries Python may hold as `None`. -/
structure RecordData where
  fechaEmision : Option PyDateTime
  periodo : String
  serie : String
  folio : String
  claveSAT : Option String
  cantidadLitrosFacturada : Option String
  litrosTransportada : Option String
  combustible : Option String
  comparacion : String
deriving DecidableEq, Repr

/-- `extract_common_data` (xml_processor.py). -/
def extract_common_data (root : Element) : RecordData :=
  let fecha_str := root.attrGetD "Fecha" ""
  let fecha_dt := datetime_fromisoformat fecha_str
  let periodo :=
    match fecha_dt with
    | some dt => toString dt.month
    | none => ""
  { fechaEmision := fecha_dt
    periodo := periodo
    serie := root.attrGetD "Serie" ""
    folio := root.attrGetD "Folio" ""
    claveSAT := none
    cantidadLitrosFacturada := none
    litrosTransportada := none
    combustible := none
    comparacion := "" }

/-- Body of `process_xml_format1` after `ET.parse` succeeded: the CartaPorte
2.0 extractor run on the parsed root. -/
def process_xml_format1_root (root : Element) : RecordData :=
  let data := extract_common_data root
  let data :=
    match root.find conceptoTag with
    | some concepto => { data with cantidadLitrosFacturada := some (concepto.attrGetD "Cantidad" "") }
    | none => data
  let data :=
    match root.find mercanciaTag20 with
    | some mercancia =>
      let clave_prod_serv := mercancia.attrGetD "BienesTransp" ""
      { data with
          claveSAT := some clave_prod_serv
          litrosTransportada := some (mercancia.attrGetD "Cantidad" "")
          combustible := map_clave_to_combustible clave_prod_serv }
    | none => data
  let res := format_and_compare_liters (some (pyOrDefault data.cantidadLitrosFacturada "0"))
    (some (pyOrDefault data.litrosTransportada "0"))
  { data with
      cantidadLitrosFacturada := some res.1
      litrosTransportada := some res.2.1
      comparacion := res.2.2 }

/-- Body of `process_xml_format2` after `ET.parse` succeeded: the CartaPorte
3.0 extractor.  The final step passes `data.get(key, '0')`; the keys are
always present (initialised by `extract_common_data`), so the `'0'` default
is dead and the stored value — a string or `None` — is passed through. -/
def process_xml_format2_root (root : Element) : RecordData :=
  let data := extract_common_data root
  let data :=
    match root.find conceptoTag with
    | some concepto => { data with cantidadLitrosFacturada := some (concepto.attrGetD "Cantidad" "") }
    | none => data
  let data :=
    match root.find mercanciaTag30 with
    | some mercancia =>
      let clave_prod_serv := mercancia.attrGetD "BienesTransp" ""
      let d1 := { data with claveSAT := some clave_prod_serv }
      let d2 :=
        match mercancia.find cantidadTransportaTag30 with
        | some ct => { d1 with litrosTransportada := some (ct.attrGetD "Cantidad" "") }
        | none => { d1 with litrosTransportada := some (mercancia.attrGetD "Cantidad" "") }
      { d2 with combustible := map_clave_to_combustible clave_prod_serv }
    | none => data
  let res := format_and_compare_liters data.cantidadLitrosFacturada data.litrosTransportada
  { data with
      cantidadLitrosFacturada := some res.1
      litrosTransportada := some res.2.1
      comparacion := res.2.2 }

/-- Body of `process_xml_format31` after `ET.parse` succeeded: the CartaPorte
3.1 extractor; structurally the 3.0 extractor with the 3.1 namespace. -/
def process_xml_format31_root (root : Element) : RecordData :=
  let data := extract_common_data root
  let data :=
    match root.find conceptoTag with
    | some concepto => { data with cantidadLitrosFacturada := some (concepto.attrGetD "Cantidad" "") }
    | none => data
  let data :=
    match root.find mercanciaTag31 with
    | some mercancia =>
      let clave_prod_serv := mercancia.attrGetD "BienesTransp" ""
      let d1 := { data with claveSAT := some clave_prod_serv }
      let d2 :=
        match mercancia.find cantidadTransportaTag31 with
        | some ct => { d1 with litrosTransportada := some (ct.attrGetD "Cantidad" "") }
        | none => { d1 with litrosTransportada := some (mercancia.attrGetD "Cantidad" "") }
      { d2 with combustible := map_clave_to_combustible clave_prod_serv }
    | none => data
  let res := format_and_compare_liters data.cantidadLitrosFacturada data.litrosTransportada
  { data with
      cantidadLitrosFacturada := some res.1
      litrosTransportada := some res.2.1
      comparacion := res.2.2 }

/-- The raised error of `xml.etree.ElementTree.parse` on a malformed file. -/
inductive PyParseError where
  | malformedXML
deriving DecidableEq, Repr

/-- A file handed to the processor: either malformed XML or a parsed root. -/
inductive XmlFile where
  | malformed
  | wellFormed (root : Element)

/-- Model of `ET.parse(file_path)` followed by `.getroot()`. -/
def ET_parse : XmlFile → Except PyParseError Element
  | .malformed => .error .malformedXML
  | .wellFormed root => .ok root

instance {ε α : Type} [DecidableEq ε] [DecidableEq α] : DecidableEq (Except ε α) := fun a b =>
  match a, b with
  | .error e, .error f => decidable_of_iff (e = f) (by simp)
  | .ok x, .ok y => decidable_of_iff (x = y) (by simp)
  | .error _, .ok _ => isFalse (by simp)
  | .ok _, .error _ => isFalse (by simp)

/-- The format strings `identify_format` returns. -/
inductive FormatType where
  | format1
  | format2
  | format31
deriving DecidableEq, Repr

/-- `identify_format` (xml_processor.py): parse, then test the three
namespaces' `Mercancia` in fixed order; a `findall` result is truthy iff
non-empty. -/
def identify_format (file : XmlFile) : Except PyParseError (Option FormatType) := do
  let root ← ET_parse file
  if (root.findall mercanciaTag20).isEmpty = false then pure (some .format1)
  else if (root.findall mercanciaTag30).isEmpty = false then pure (some .format2)
  else if (root.findall mercanciaTag31).isEmpty = false then pure (some .format31)
  else pure none

/-- `process_xml_format1` (xml_processor.py) at the file boundary. -/
def process_xml_format1 (file : XmlFile) : Except PyParseError RecordData := do
  let root ← ET_parse file
  pure (process_xml_format1_root root)

/-- `process_xml_format2` (xml_processor.py) at the file boundary. -/
def process_xml_format2 (file : XmlFile) : Except PyParseError RecordData := do
  let root ← ET_parse file
  pure (process_xml_format2_root root)

/-- `process_xml_format31` (xml_processor.py) at the file boundary. -/
def process_xml_format31 (file : XmlFile) : Except PyParseError RecordData := do
  let root ← ET_parse file
  pure (process_xml_format31_root root)

/-- `process_file_based_on_format` (xml_processor.py). -/
def process_file_based_on_format (file : XmlFile) : Except PyParseError (Option RecordData) := do
  let format_type ← identify_format file
  match format_type with
  | some .format1 => do
    let d ← process_xml_format1 file
    pure (some d)
  | some .format2 => do
    let d ← process_xml_format2 file
    pure (some d)
  | some .format31 => do
    let d ← process_xml_format31 file
    pure (some d)
  | none => pure none

/-! pdf_handler.py -/

/-- Stem of `os.path.splitext(filename)[0]`: the name up to the last dot,
except that a name whose characters before that dot are all dots (such as
`.bashrc`) has no extension. -/
def splitextStem (s : String) : String :=
  let cs := s.toList
  match (cs.enum.filter (fun p => p.2 = '.')).getLast? with
  | none => s
  | some p => if (cs.take p.1).all (fun c => c = '.') then s else String.mk (cs.take p.1)

/-- `identify_pdf` (pdf_handler.py); `pdf_files` stands for the keys of the
collected PDF dictionary. -/
def identify_pdf (xml_filename : String) (pdf_files : List String) : String :=
  let base_name := splitextStem xml_filename
  let pdf_name := base_name ++ ".pdf"
  if pdf_name ∈ pdf_files then pdf_name else "No encontrado"

/-- One entry of `all_data` in `process_uploaded_files`: the record returned
by `process_file_based_on_format` plus the two keys the loop adds. -/
structure BatchRow where
  data : RecordData
  xmlFile : String
  pdfAsociado : String
deriving DecidableEq, Repr

/-- The XML loop of `process_uploaded_files` (pdf_handler.py): each file in
the (path-sorted) list is processed; a raised error is caught, logged and
skipped, a `None` result is skipped, and any record is extended with
`XML_File` and `PDF Asociado`.  `uploaded` is the sorted list of XML file
names paired with their parse outcome. -/
def batchRows (uploaded : List (String × XmlFile)) (pdf_files : List String) : List BatchRow :=
  uploaded.filterMap (fun u =>
    match process_file_based_on_format u.2 with
    | .error _ => none
    | .ok none => none
    | .ok (some data) => some ⟨data, u.1, identify_pdf u.1 pdf_files⟩)

/-- A DataFrame row after the two quantity columns were cast with
`astype(float)`; `FechaEmision` is still present to drive the sort.  The
quantity strings are always output of the normaliser (3-decimal numerals,
`inf`, `-inf` or `nan`), on which the cast agrees with `parse_float`. -/
structure SortRow where
  fechaEmision : Option PyDateTime
  periodo : String
  serie : String
  folio : String
  claveSAT : Option String
  cantidadLitrosFacturada : PyFloat
  litrosTransportada : PyFloat
  combustible : Option String
  comparacion : String
  xmlFile : String
  pdfAsociado : String
deriving DecidableEq, Repr

def toSortRow (r : BatchRow) : SortRow :=
  { fechaEmision := r.data.fechaEmision
    periodo := r.data.periodo
    serie := r.data.serie
    folio := r.data.folio
    claveSAT := r.data.claveSAT
    cantidadLitrosFacturada := parse_float r.data.cantidadLitrosFacturada
    litrosTransportada := parse_float r.data.litrosTransportada
    combustible := r.data.combustible
    comparacion := r.data.comparacion
    xmlFile := r.xmlFile
    pdfAsociado := r.pdfAsociado }

/-- A row of the returned DataFrame: `FechaEmision` has been dropped. -/
structure OutputRow where
  periodo : String
  serie : String
  folio : String
  claveSAT : Option String
  cantidadLitrosFacturada : PyFloat
  litrosTransportada : PyFloat
  combustible : Option String
  comparacion : String
  xmlFile : String
  pdfAsociado : String
deriving DecidableEq, Repr

def dropFecha (r : SortRow) : OutputRow :=
  { periodo := r.periodo
    serie := r.serie
    folio := r.folio
    claveSAT := r.claveSAT
    cantidadLitrosFacturada := r.cantidadLitrosFacturada
    litrosTransportada := r.litrosTransportada
    combustible := r.combustible
    comparacion := r.comparacion
    xmlFile := r.xmlFile
    pdfAsociado := r.pdfAsociado }

/-- Chronological key: months ≤ 12, days ≤ 31, hours ≤ 23 and
minutes/seconds ≤ 59 on every parsed datetime make this encoding monotone in
the field-lexicographic order pandas uses to compare timestamps. -/
def PyDateTime.toNatKey (d : PyDateTime) : Nat :=
  ((((d.year * 13 + d.month) * 32 + d.day) * 24 + d.hour) * 60 + d.minute) * 60 + d.second

/-- Comparison `sort_values(by="FechaEmision", na_position='last')` sorts
by: missing dates compare greater than every date. -/
def fechaLeB (a b : Option PyDateTime) : Bool :=
  match a, b with
  | _, none => true
  | none, some _ => false
  | some x, some y => x.toNatKey ≤ y.toNatKey

def rowLe (a b : SortRow) : Prop :=
  fechaLeB a.fechaEmision b.fechaEmision = true

instance : DecidableRel rowLe := fun a b => by
  unfold rowLe
  infer_instance

instance : IsTotal SortRow rowLe where
  total a b := by
    unfold rowLe fechaLeB
    cases a.fechaEmision <;> cases b.fechaEmision <;> simp <;> omega

instance : IsTrans SortRow rowLe where
  trans a b c := by
    unfold rowLe fechaLeB
    cases a.fechaEmision <;> cases b.fechaEmision <;> cases c.fechaEmision <;> simp <;> omega

/-- `process_uploaded_files` (pdf_handler.py), restricted to the DataFrame
it returns: collect one row per recognised, successfully parsed XML, cast
the quantity columns to float, sort by `FechaEmision` with missing dates
last, and drop the `FechaEmision` column.  (pandas' default sort leaves the
order of equal keys unspecified; the model fixes the stable order.)  On an
empty row list the casts and the sort are skipped in Python; both paths
yield the empty frame. -/
def process_uploaded_files (uploaded : List (String × XmlFile)) (pdf_files : List String) :
    List OutputRow :=
  let rows := (batchRows uploaded pdf_files).map toSortRow
  (List.insertionSort rowLe rows).map dropFecha

/-! Auxiliary notions the verified properties are stated with. -/

/-- A string rendered with exactly three decimal places: an integer part,
a dot, and three digit characters. -/
def hasThreeDecimals (s : String) : Prop :=
  ∃ ip fr, s = ip ++ "." ++ fr ∧ fr.length = 3 ∧ ∀ c ∈ fr.data, pyIsDigit c = true

/-- The shared-normalisation invariant of an extracted record: both
quantity fields hold (non-null) 3-decimal strings and the comparison field
holds one of the two labels. -/
def normalizedRecord (r : RecordData) : Prop :=
  (∃ s, r.cantidadLitrosFacturada = some s ∧ hasThreeDecimals s) ∧
  (∃ t, r.litrosTransportada = some t ∧ hasThreeDecimals t) ∧
  (r.comparacion = "Iguales" ∨ r.comparacion = "Diferentes")

/-- The unconditional part of the normalisation invariant: both quantity
fields hold some string and the comparison field one of the two labels. -/
def populatedRecord (r : RecordData) : Prop :=
  (∃ s, r.cantidadLitrosFacturada = some s) ∧
  (∃ t, r.litrosTransportada = some t) ∧
  (r.comparacion = "Iguales" ∨ r.comparacion = "Diferentes")

/-- Every `Cantidad` attribute present in the document carries a string
whose `float()` value is finite — in particular any string `float()`
rejects qualifies, since that failure is coerced to `0.0`; only the
infinity and NaN spellings and overflowing literals are excluded. -/
def cantidadesFinite (root : Element) : Prop :=
  ∀ d ∈ descendantsList root.children,
    (d.attrGet "Cantidad").all (fun v => (parse_float (some v)).isFinite) = true

/-- Tag with one namespace URI substituted for another. -/
def renameTag (nsFrom nsTo : String) (t : Tag) : Tag :=
  if t.ns = nsFrom then ⟨nsTo, t.name⟩ else t

mutual
/-- The same document with every element in namespace `nsFrom` moved to
namespace `nsTo` (structure and attributes unchanged). -/
def substNS (nsFrom nsTo : String) : Element → Element
  | .mk t a cs => .mk (renameTag nsFrom nsTo t) a (substNSList nsFrom nsTo cs)

def substNSList (nsFrom nsTo : String) : ElementList → ElementList
  | .nil => .nil
  | .cons c cs => .cons (substNS nsFrom nsTo c) (substNSList nsFrom nsTo cs)
end

/-- No proper descendant of `root` carries namespace `ns`. -/
def avoidsNS (ns : String) (root : Element) : Prop :=
  ∀ d ∈ descendantsList root.children, d.tag.ns ≠ ns

/-! Concrete sample documents used by the claims' concrete test cases. -/

def comprobanteTag : Tag := ⟨nsCFDI, "Comprobante"⟩

/-- CartaPorte 2.0 document: billed 100, merchandise `Cantidad` 100. -/
def docV1 : Element :=
  .mk comprobanteTag [("Fecha", "2023-05-01T10:00:00"), ("Serie", "A"), ("Folio", "1")]
    (.ofList
      [.mk conceptoTag [("Cantidad", "100")] .nil,
       .mk mercanciaTag20 [("BienesTransp", "15101514"), ("Cantidad", "100")] .nil])

/-- CartaPorte 3.0 document with the merchandise element's own
`Cantidad="50"` and no nested quantity-breakdown element. -/
def docV2own : Element :=
  .mk comprobanteTag [("Fecha", "2023-01-01"), ("Serie", "A"), ("Folio", "2")]
    (.ofList
      [.mk conceptoTag [("Cantidad", "50")] .nil,
       .mk mercanciaTag30 [("BienesTransp", "15101515"), ("Cantidad", "50")] .nil])

/-- CartaPorte 3.0 document with own `Cantidad="50"` and a nested
`CantidadTransporta` carrying `Cantidad="75"`. -/
def docV2nested : Element :=
  .mk comprobanteTag [("Fecha", "2023-01-01"), ("Serie", "A"), ("Folio", "2")]
    (.ofList
      [.mk conceptoTag [("Cantidad", "50")] .nil,
       .mk mercanciaTag30 [("BienesTransp", "15101515"), ("Cantidad", "50")]
         (.ofList [.mk cantidadTransportaTag30 [("Cantidad", "75")] .nil])])

/-- CartaPorte 3.1 document with own `Cantidad="50"` and no nested
quantity-breakdown element. -/
def docV31own : Element :=
  .mk comprobanteTag [("Fecha", "2023-02-01"), ("Serie", "B"), ("Folio", "3")]
    (.ofList
      [.mk conceptoTag [("Cantidad", "50")] .nil,
       .mk mercanciaTag31 [("BienesTransp", "15101505"), ("Cantidad", "50")] .nil])

/-- CartaPorte 3.1 document with own `Cantidad="50"` and a nested
`CantidadTransporta` carrying `Cantidad="75"`. -/
def docV31nested : Element :=
  .mk comprobanteTag [("Fecha", "nope"), ("Serie", "B"), ("Folio", "3")]
    (.ofList
      [.mk conceptoTag [("Cantidad", "50")] .nil,
       .mk mercanciaTag31 [("BienesTransp", "15101505"), ("Cantidad", "50")]
         (.ofList [.mk cantidadTransportaTag31 [("Cantidad", "75")] .nil])])

/-- CartaPorte 2.0 document whose merchandise `Cantidad` carries the
spelling `"inf"`, which `float()` accepts as positive infinity. -/
def docV1inf : Element :=
  .mk comprobanteTag [("Fecha", "2023-06-01"), ("Serie", "A"), ("Folio", "9")]
    (.ofList
      [.mk conceptoTag [("Cantidad", "100")] .nil,
       .mk mercanciaTag20 [("BienesTransp", "15101514"), ("Cantidad", "inf")] .nil])

/-- A well-formed document carrying no recognised merchandise namespace. -/
def docPlain : Element :=
  .mk comprobanteTag [("Fecha", "2023-03-01"), ("Serie", "C"), ("Folio", "4")]
    (.ofList [.mk conceptoTag [("Cantidad", "10")] .nil])

/-! Facts about the decimal renderer, the parser and the rounding. -/

theorem digitChar_toNat {d : Nat} (h : d < 10) : (Nat.digitChar d).toNat = 48 + d := by
  interval_cases d <;> decide

theorem pyIsDigit_digitChar {d : Nat} (h : d < 10) : pyIsDigit (Nat.digitChar d) = true := by
  interval_cases d <;> decide

theorem pyDigitsVal_append (l : List Char) (c : Char) :
    pyDigitsVal (l ++ [c]) = 10 * pyDigitsVal l + (c.toNat - 48) := by
  simp [pyDigitsVal, List.foldl_append]

theorem natDecAux_spec :
    ∀ (fuel n : Nat), n < 10 ^ (fuel + 1) →
      pyDigitsVal (natDecAux (fuel + 1) n) = n ∧
        (∀ c ∈ natDecAux (fuel + 1) n, pyIsDigit c = true) ∧ natDecAux (fuel + 1) n ≠ []
  | 0, n, h => by
    have hn : n < 10 := by simpa using h
    have hv : (Nat.digitChar n).toNat = 48 + n := digitChar_toNat hn
    refine ⟨by simp [natDecAux, hn, pyDigitsVal, hv], ?_, by simp [natDecAux, hn]⟩
    intro c hc
    simp [natDecAux, hn] at hc
    subst hc
    exact pyIsDigit_digitChar hn
  | fuel + 1, n, h => by
    by_cases hn : n < 10
    · have hv : (Nat.digitChar n).toNat = 48 + n := digitChar_toNat hn
      refine ⟨by simp [natDecAux, hn, pyDigitsVal, hv], ?_, by simp [natDecAux, hn]⟩
      intro c hc
      simp [natDecAux, hn] at hc
      subst hc
      exact pyIsDigit_digitChar hn
    · have hd : n / 10 < 10 ^ (fuel + 1) := by
        rw [Nat.div_lt_iff_lt_mul (by norm_num)]
        calc n < 10 ^ (fuel + 1 + 1) := h
          _ = 10 ^ (fuel + 1) * 10 := by ring
      obtain ⟨ih1, ih2, ih3⟩ := natDecAux_spec fuel (n / 10) hd
      have hm : n % 10 < 10 := Nat.mod_lt _ (by norm_num)
      have heq : natDecAux (fuel + 1 + 1) n =
          natDecAux (fuel + 1) (n / 10) ++ [Nat.digitChar (n % 10)] := by
        simp [natDecAux, hn]
      refine ⟨?_, ?_, by simp [heq]⟩
      · rw [heq, pyDigitsVal_append, ih1, digitChar_toNat hm]
        omega
      · intro c hc
        rw [heq] at hc
        rcases List.mem_append.1 hc with h1 | h2
        · exact ih2 c h1
        · simp at h2
          subst h2
          exact pyIsDigit_digitChar hm

theorem natDecString_spec (n : Nat) :
    pyDigitsVal (natDecString n).data = n ∧
      (∀ c ∈ (natDecString n).data, pyIsDigit c = true) ∧ (natDecString n).data ≠ [] := by
  have h : n < 10 ^ (n + 1) := by
    calc n < 10 ^ n := Nat.lt_pow_self (by norm_num) n
      _ ≤ 10 ^ (n + 1) := Nat.pow_le_pow_right (by norm_num) (Nat.le_succ n)
  exact natDecAux_spec n n h

theorem floatOverflowThreshold_eq : floatOverflowThreshold = ((2 ^ 1024 - 2 ^ 970 : ℕ) : ℚ) := by
  norm_num [floatOverflowThreshold]

theorem roundQ_abs_le (q : ℚ) : |(roundQ q : ℚ) - q| ≤ 1 / 2 := by
  have hdpos : (0 : ℤ) < (q.den : ℤ) := by exact_mod_cast q.pos
  have hdq0 : (0 : ℚ) < (q.den : ℚ) := by exact_mod_cast q.pos
  have hq : (q.num : ℚ) / (q.den : ℚ) = q := Rat.num_div_den q
  have hqd : (q.num : ℚ) = q * (q.den : ℚ) := (div_eq_iff (ne_of_gt hdq0)).mp hq
  have hrdef : q.num - Int.fdiv q.num (q.den : ℤ) * (q.den : ℤ) = q.num % (q.den : ℤ) := by
    rw [Int.fdiv_eq_ediv _ (le_of_lt hdpos), Int.emod_def]
    ring
  have hm0 : 0 ≤ q.num % (q.den : ℤ) := Int.emod_nonneg _ (ne_of_gt hdpos)
  have hmb : q.num % (q.den : ℤ) < (q.den : ℤ) := Int.emod_lt_of_pos _ hdpos
  have hcast : (q.num : ℚ) = ((q.num % (q.den : ℤ) : ℤ) : ℚ) +
      ((Int.fdiv q.num (q.den : ℤ) : ℤ) : ℚ) * (q.den : ℚ) := by
    exact_mod_cast congrArg (fun z : ℤ => (z : ℚ)) (sub_eq_iff_eq_add.mp hrdef)
  have hdelta : q - ((Int.fdiv q.num (q.den : ℤ) : ℤ) : ℚ) =
      ((q.num % (q.den : ℤ) : ℤ) : ℚ) / (q.den : ℚ) := by
    rw [eq_div_iff (ne_of_gt hdq0)]
    linear_combination hcast - hqd
  have hR0 : (0 : ℚ) ≤ ((q.num % (q.den : ℤ) : ℤ) : ℚ) := by exact_mod_cast hm0
  have hRd : ((q.num % (q.den : ℤ) : ℤ) : ℚ) < (q.den : ℚ) := by exact_mod_cast hmb
  have ht0 : (0 : ℚ) ≤ ((q.num % (q.den : ℤ) : ℤ) : ℚ) / (q.den : ℚ) :=
    div_nonneg hR0 (le_of_lt hdq0)
  have ht1 : ((q.num % (q.den : ℤ) : ℤ) : ℚ) / (q.den : ℚ) < 1 := (div_lt_one hdq0).mpr hRd
  simp only [roundQ]
  rw [hrdef]
  split_ifs with h1 h2 h3
  · have hc : ((q.num % (q.den : ℤ) : ℤ) : ℚ) / (q.den : ℚ) ≤ 1 / 2 := by
      rw [div_le_div_iff hdq0 (by norm_num)]
      have hcc : (2 : ℚ) * ((q.num % (q.den : ℤ) : ℤ) : ℚ) < (q.den : ℚ) := by exact_mod_cast h1
      linarith
    rw [abs_le]
    constructor <;> linarith [hdelta, ht0, hc]
  · have hc : 1 / 2 ≤ ((q.num % (q.den : ℤ) : ℤ) : ℚ) / (q.den : ℚ) := by
      rw [div_le_div_iff (by norm_num) hdq0]
      have hcc : (q.den : ℚ) < 2 * ((q.num % (q.den : ℤ) : ℤ) : ℚ) := by exact_mod_cast h2
      linarith
    push_cast
    rw [abs_le]
    constructor <;> linarith [hdelta, ht1, hc]
  · have hc : ((q.num % (q.den : ℤ) : ℤ) : ℚ) / (q.den : ℚ) = 1 / 2 := by
      rw [div_eq_div_iff (ne_of_gt hdq0) (by norm_num)]
      have hcc : (2 : ℚ) * ((q.num % (q.den : ℤ) : ℤ) : ℚ) = (q.den : ℚ) := by
        exact_mod_cast le_antisymm (not_lt.mp h2) (not_lt.mp h1)
      linarith
    rw [abs_le]
    constructor <;> linarith [hdelta]
  · have hc : ((q.num % (q.den : ℤ) : ℤ) : ℚ) / (q.den : ℚ) = 1 / 2 := by
      rw [div_eq_div_iff (ne_of_gt hdq0) (by norm_num)]
      have hcc : (2 : ℚ) * ((q.num % (q.den : ℤ) : ℤ) : ℚ) = (q.den : ℚ) := by
        exact_mod_cast le_antisymm (not_lt.mp h2) (not_lt.mp h1)
      linarith
    push_cast
    rw [abs_le]
    constructor <;> linarith [hdelta]

theorem dropWhile_false {α : Type} {p : α → Bool} :
    ∀ l : List α, (∀ c ∈ l, p c = false) → l.dropWhile p = l
  | [], _ => rfl
  | c :: t, h => by simp [List.dropWhile_cons, h c (by simp)]

theorem takeWhile_true {α : Type} {p : α → Bool} :
    ∀ l : List α, (∀ c ∈ l, p c = true) → l.takeWhile p = l
  | [], _ => rfl
  | c :: t, h => by
    have hc := h c (by simp)
    have ht := takeWhile_true t (fun x hx => h x (by simp [hx]))
    simp [List.takeWhile_cons, hc, ht]

theorem dropWhile_true {α : Type} {p : α → Bool} :
    ∀ l : List α, (∀ c ∈ l, p c = true) → l.dropWhile p = []
  | [], _ => rfl
  | c :: t, h => by
    have hc := h c (by simp)
    have ht := dropWhile_true t (fun x hx => h x (by simp [hx]))
    simp [List.dropWhile_cons, hc, ht]

theorem pyStrip_eq_self {l : List Char} (h : ∀ c ∈ l, isPySpace c = false) : pyStrip l = l := by
  unfold pyStrip
  rw [dropWhile_false l h,
    dropWhile_false l.reverse (fun c hc => h c (List.mem_reverse.1 hc)),
    List.reverse_reverse]

theorem pyIsDigit_not_space {c : Char} (h : pyIsDigit c = true) : isPySpace c = false := by
  simp [pyIsDigit] at h
  simp [isPySpace]
  omega

theorem parseSign_digit {c : Char} (t : List Char) (hc : pyIsDigit c = true) :
    parseSign (c :: t) = (false, c :: t) := by
  have h1 : c ≠ '+' := by rintro rfl; exact absurd hc (by decide)
  have h2 : c ≠ '-' := by rintro rfl; exact absurd hc (by decide)
  simp [parseSign, h1, h2]

theorem parseSign_minus (t : List Char) : parseSign ('-' :: t) = (true, t) := by
  simp [parseSign]

theorem decValOfString_decimal (neg : Bool) (ip fr : List Char)
    (hipne : ip ≠ []) (hfrne : fr ≠ [])
    (hip : ∀ c ∈ ip, pyIsDigit c = true) (hfr : ∀ c ∈ fr, pyIsDigit c = true) :
    decValOfString ⟨(if neg then ['-'] else []) ++ (ip ++ '.' :: fr)⟩ =
      some (applySign neg ((pyDigitsVal ip : ℚ) + (pyDigitsVal fr : ℚ) / 10 ^ fr.length)) := by
  have hdot : pyIsDigit '.' = false := by decide
  have hnospace : ∀ c ∈ (if neg then ['-'] else []) ++ (ip ++ '.' :: fr), isPySpace c = false := by
    intro c hc
    rcases List.mem_append.1 hc with h1 | h2
    · cases neg <;> simp at h1
      subst h1
      decide
    · rcases List.mem_append.1 h2 with h3 | h4
      · exact pyIsDigit_not_space (hip c h3)
      · rcases List.mem_cons.1 h4 with h5 | h6
        · subst h5; decide
        · exact pyIsDigit_not_space (hfr c h6)
  have hspan : (ip ++ '.' :: fr).span pyIsDigit = (ip, '.' :: fr) := by
    rw [List.span_eq_take_drop, List.takeWhile_append_of_pos hip,
      List.dropWhile_append_of_pos hip]
    simp [List.takeWhile_cons, List.dropWhile_cons, hdot]
  have hspanfr : fr.span pyIsDigit = (fr, []) := by
    rw [List.span_eq_take_drop, takeWhile_true fr hfr, dropWhile_true fr hfr]
  have hlist : (String.mk ((if neg then ['-'] else []) ++ (ip ++ '.' :: fr))).toList =
      (if neg then ['-'] else []) ++ (ip ++ '.' :: fr) := rfl
  simp only [decValOfString, hlist, pyStrip_eq_self hnospace]
  cases neg with
  | true =>
    rw [show ((if (true : Bool) then ['-'] else []) ++ (ip ++ '.' :: fr)) =
      '-' :: (ip ++ '.' :: fr) from rfl, parseSign_minus]
    simp only [decimalTail, hspan]
    simp [List.span_eq_take_drop, takeWhile_true fr hfr, dropWhile_true fr hfr, hipne, hfrne,
      parseExpTail]
  | false =>
    obtain ⟨c0, t0, rfl⟩ : ∃ c0 t0, ip = c0 :: t0 := by
      cases ip with
      | nil => exact absurd rfl hipne
      | cons a b => exact ⟨a, b, rfl⟩
    rw [show ((if (false : Bool) then ['-'] else []) ++ ((c0 :: t0) ++ '.' :: fr)) =
      c0 :: (t0 ++ '.' :: fr) from rfl, parseSign_digit _ (hip c0 (by simp))]
    have hspan' := hspan
    simp only [List.cons_append] at hspan' ⊢
    simp only [decimalTail, hspan']
    simp [List.span_eq_take_drop, takeWhile_true fr hfr, dropWhile_true fr hfr, hfrne,
      parseExpTail]

theorem format_and_compare_liters_eq (x y : Option String) :
    format_and_compare_liters x y =
      (fmt3f (parse_float x), fmt3f (parse_float y),
        if PyFloat.ltB (PyFloat.absf (PyFloat.sub (parse_float x) (parse_float y)))
            (.finite (1 / 1000000000)) then "Iguales" else "Diferentes") := rfl

theorem fmt3_threeDecimals (q : ℚ) : hasThreeDecimals (fmt3 q) := by
  refine ⟨(if roundQ (q * 1000) < 0 then "-" else "") ++
      natDecString ((roundQ (q * 1000)).natAbs / 1000),
    ⟨[Nat.digitChar ((roundQ (q * 1000)).natAbs / 100 % 10),
      Nat.digitChar ((roundQ (q * 1000)).natAbs / 10 % 10),
      Nat.digitChar ((roundQ (q * 1000)).natAbs % 10)]⟩, rfl, rfl, ?_⟩
  intro c hc
  simp only [List.mem_cons, List.not_mem_nil, or_false] at hc
  rcases hc with h | h | h <;> subst h <;>
    exact pyIsDigit_digitChar (Nat.mod_lt _ (by norm_num))

theorem decVal_fmt3 (q : ℚ) :
    decValOfString (fmt3 q) = some ((roundQ (q * 1000) : ℚ) / 1000) := by
  obtain ⟨hipval, hipdig, hipne⟩ := natDecString_spec ((roundQ (q * 1000)).natAbs / 1000)
  have hm100 : (roundQ (q * 1000)).natAbs / 100 % 10 < 10 := Nat.mod_lt _ (by norm_num)
  have hm10 : (roundQ (q * 1000)).natAbs / 10 % 10 < 10 := Nat.mod_lt _ (by norm_num)
  have hm1 : (roundQ (q * 1000)).natAbs % 10 < 10 := Nat.mod_lt _ (by norm_num)
  have hfrdig : ∀ c ∈ [Nat.digitChar ((roundQ (q * 1000)).natAbs / 100 % 10),
      Nat.digitChar ((roundQ (q * 1000)).natAbs / 10 % 10),
      Nat.digitChar ((roundQ (q * 1000)).natAbs % 10)], pyIsDigit c = true := by
    intro c hc
    simp only [List.mem_cons, List.not_mem_nil, or_false] at hc
    rcases hc with h | h | h <;> subst h
    · exact pyIsDigit_digitChar hm100
    · exact pyIsDigit_digitChar hm10
    · exact pyIsDigit_digitChar hm1
  have hfrval : pyDigitsVal [Nat.digitChar ((roundQ (q * 1000)).natAbs / 100 % 10),
      Nat.digitChar ((roundQ (q * 1000)).natAbs / 10 % 10),
      Nat.digitChar ((roundQ (q * 1000)).natAbs % 10)] =
      (roundQ (q * 1000)).natAbs % 1000 := by
    simp [pyDigitsVal, digitChar_toNat hm100, digitChar_toNat hm10, digitChar_toNat hm1]
    omega
  have hdm : (1000 : ℚ) * (((roundQ (q * 1000)).natAbs / 1000 : ℕ) : ℚ) +
      (((roundQ (q * 1000)).natAbs % 1000 : ℕ) : ℚ) = ((roundQ (q * 1000)).natAbs : ℚ) := by
    exact_mod_cast Nat.div_add_mod (roundQ (q * 1000)).natAbs 1000
  by_cases hneg : roundQ (q * 1000) < 0
  · have hstr : fmt3 q = ⟨(if (true : Bool) then ['-'] else []) ++
        ((natDecString ((roundQ (q * 1000)).natAbs / 1000)).data ++ '.' ::
          [Nat.digitChar ((roundQ (q * 1000)).natAbs / 100 % 10),
           Nat.digitChar ((roundQ (q * 1000)).natAbs / 10 % 10),
           Nat.digitChar ((roundQ (q * 1000)).natAbs % 10)])⟩ := by
      apply String.ext
      simp only [fmt3]
      rw [if_pos hneg]
      simp [List.append_assoc]
    have hmq : (((roundQ (q * 1000)).natAbs : ℕ) : ℚ) = -((roundQ (q * 1000) : ℤ) : ℚ) := by
      rw [Int.cast_natAbs]
      exact_mod_cast abs_of_neg hneg
    rw [hstr, decValOfString_decimal true _ _ hipne (by simp) hipdig hfrdig]
    simp [applySign]
    rw [hipval, hfrval]
    rw [show (10 : ℚ) ^ 3 = 1000 from by norm_num,
      eq_div_iff (by norm_num : (1000 : ℚ) ≠ 0)]
    linear_combination -hdm - hmq
  · have hstr : fmt3 q = ⟨(if (false : Bool) then ['-'] else []) ++
        ((natDecString ((roundQ (q * 1000)).natAbs / 1000)).data ++ '.' ::
          [Nat.digitChar ((roundQ (q * 1000)).natAbs / 100 % 10),
           Nat.digitChar ((roundQ (q * 1000)).natAbs / 10 % 10),
           Nat.digitChar ((roundQ (q * 1000)).natAbs % 10)])⟩ := by
      apply String.ext
      simp only [fmt3]
      rw [if_neg hneg]
      simp [List.append_assoc]
    have hmq : (((roundQ (q * 1000)).natAbs : ℕ) : ℚ) = ((roundQ (q * 1000) : ℤ) : ℚ) := by
      rw [Int.cast_natAbs]
      exact_mod_cast abs_of_nonneg (not_lt.1 hneg)
    rw [hstr, decValOfString_decimal false _ _ hipne (by simp) hipdig hfrdig]
    simp [applySign]
    rw [hipval, hfrval]
    rw [show (10 : ℚ) ^ 3 = 1000 from by norm_num,
      eq_div_iff (by norm_num : (1000 : ℚ) ≠ 0)]
    linear_combination hdm + hmq

theorem fcl_comp_labels (x y : Option String) :
    (format_and_compare_liters x y).2.2 = "Iguales" ∨
      (format_and_compare_liters x y).2.2 = "Diferentes" := by
  rw [format_and_compare_liters_eq]
  by_cases h : PyFloat.ltB (PyFloat.absf (PyFloat.sub (parse_float x) (parse_float y)))
      (.finite (1 / 1000000000)) = true
  · left
    rw [if_pos h]
  · right
    rw [if_neg h]

theorem fcl_fst_threeDecimals (x y : Option String) (q : ℚ)
    (h : parse_float x = .finite q) :
    hasThreeDecimals (format_and_compare_liters x y).1 := by
  rw [format_and_compare_liters_eq, h]
  exact fmt3_threeDecimals q

theorem fcl_snd_threeDecimals (x y : Option String) (q : ℚ)
    (h : parse_float y = .finite q) :
    hasThreeDecimals (format_and_compare_liters x y).2.1 := by
  rw [format_and_compare_liters_eq, h]
  exact fmt3_threeDecimals q

theorem parse_float_pyOr (v : Option String) :
    parse_float (some (pyOrDefault v "0")) = parse_float v := by
  rcases v with _ | s
  · decide
  · by_cases h : s = ""
    · subst h
      decide
    · simp [pyOrDefault, h]

theorem not_threeDecimals_inf : ¬ hasThreeDecimals "inf" := by
  rintro ⟨ip, fr, heq, hlen, -⟩
  have hli : ("inf" : String).length = 3 := rfl
  rw [heq, String.length_append, String.length_append, hlen] at hli
  have hdot : ("." : String).length = 1 := rfl
  rw [hdot] at hli
  omega

/-- C3 counterexample: the frozen claim promises a 3-decimal numeral for
every pair of raw input strings, but `float("inf")` is positive infinity
and `f"{x:.3f}"` prints it as `inf`: on the raw pair `("inf", "1")` the
function returns `("inf", "1.000", "Diferentes")`, and `"inf"` is not a
3-decimal numeral. -/
theorem C3_counterexample :
    format_and_compare_liters (some "inf") (some "1") = ("inf", "1.000", "Diferentes") ∧
      ¬ hasThreeDecimals "inf" :=
  ⟨by decide, not_threeDecimals_inf⟩

/-- C3 amended: `format_and_compare_liters` parses both raw strings via
`parse_float` and, whenever both parsed values are finite — every input
except the infinity/NaN spellings and overflowing literals, since parse
failures coerce to `0.0` — returns each formatted to exactly three decimal
places (the returned numeral denotes `roundQ(v*1000)/1000`, the value
rounded to the nearest thousandth with ties to even, which lies within
`1/2000` of the parsed value), and returns `"Iguales"` iff the absolute
difference of the parsed values is strictly below `1e-9`, else
`"Diferentes"` (a non-finite operand always compares `"Diferentes"`, as
the NaN-rejecting IEEE `<` fails on it); the comparison field is always
one of the two labels; in particular `("10","10")` yields
`("10.000","10.000","Iguales")`, `("10","10.0000000009")` compares equal,
`("10","10.01")` compares different, and `("0.0625","0.0625")` formats
half-to-even as `"0.062"`.  The function is a pure Lean function, hence
side-effect-free. -/
theorem C3_format_and_compare_finite :
    (∀ (a b : String) (qa qb : ℚ),
      parse_float (some a) = .finite qa → parse_float (some b) = .finite qb →
      (format_and_compare_liters (some a) (some b)).1 = fmt3 qa ∧
      (format_and_compare_liters (some a) (some b)).2.1 = fmt3 qb ∧
      hasThreeDecimals (format_and_compare_liters (some a) (some b)).1 ∧
      hasThreeDecimals (format_and_compare_liters (some a) (some b)).2.1 ∧
      decValOfString (format_and_compare_liters (some a) (some b)).1 =
        some ((roundQ (qa * 1000) : ℚ) / 1000) ∧
      |(roundQ (qa * 1000) : ℚ) / 1000 - qa| ≤ 1 / 2000 ∧
      ((format_and_compare_liters (some a) (some b)).2.2 = "Iguales" ↔
        |qa - qb| < 1 / 1000000000)) ∧
    (∀ a b : String,
      (format_and_compare_liters (some a) (some b)).2.2 = "Iguales" ∨
        (format_and_compare_liters (some a) (some b)).2.2 = "Diferentes") ∧
    format_and_compare_liters (some "10") (some "10") = ("10.000", "10.000", "Iguales") ∧
    (format_and_compare_liters (some "10") (some "10.0000000009")).2.2 = "Iguales" ∧
    (format_and_compare_liters (some "10") (some "10.01")).2.2 = "Diferentes" ∧
    format_and_compare_liters (some "0.0625") (some "0.0625") =
      ("0.062", "0.062", "Iguales") := by
  refine ⟨?_, fun a b => fcl_comp_labels (some a) (some b), by decide, by decide, by decide,
    by decide⟩
  intro a b qa qb ha hb
  rw [format_and_compare_liters_eq, ha, hb]
  have hcond : (PyFloat.ltB (PyFloat.absf (PyFloat.sub (PyFloat.finite qa) (PyFloat.finite qb)))
      (.finite (1 / 1000000000)) = true) ↔ |qa - qb| < 1 / 1000000000 := by
    simp [PyFloat.sub, PyFloat.absf, PyFloat.ltB]
  refine ⟨rfl, rfl, fmt3_threeDecimals qa, fmt3_threeDecimals qb, decVal_fmt3 qa, ?_, ?_⟩
  · have h := roundQ_abs_le (qa * 1000)
    rw [show (roundQ (qa * 1000) : ℚ) / 1000 - qa =
      ((roundQ (qa * 1000) : ℚ) - qa * 1000) / 1000 from by ring]
    rw [abs_div, show |(1000 : ℚ)| = 1000 from by norm_num]
    linarith
  · constructor
    · intro h
      by_contra hn
      rw [if_neg (fun hc => hn (hcond.mp hc))] at h
      simp at h
    · intro h
      rw [if_pos (hcond.mpr h)]

/-- C3 witness: the general part of the amended theorem applied at the
concrete pair `("10", "10.01")`, whose values parse to the finite rationals
`10` and `1001/100`. -/
theorem C3_witness :
    hasThreeDecimals (format_and_compare_liters (some "10") (some "10.01")).1 :=
  (C3_format_and_compare_finite.1 "10" "10.01" 10 (1001 / 100)
    (by decide) (by decide)).2.2.1

/-- C6: `parse_float` is total: `None` (absent), the empty string and
non-numeric text all yield `0.0`; every string the float parser rejects
yields `0.0`; every accepted string yields its parsed value (for example
`"123.45"` parses to `123.45`).  No error case is observable. -/
theorem C6_parse_float_total :
    parse_float none = 0 ∧ parse_float (some "") = 0 ∧ parse_float (some "abc") = 0 ∧
    parse_float (some "123.45") = .finite (12345 / 100) ∧
    (∀ s : String, pyFloatOfString s = none → parse_float (some s) = 0) ∧
    (∀ (s : String) (x : PyFloat), pyFloatOfString s = some x → parse_float (some s) = x) := by
  refine ⟨by decide, by decide, by decide, by decide, ?_, ?_⟩
  · intro s h
    simp [parse_float, h]
  · intro s x h
    simp [parse_float, h]

/-- C6 witness: totality applied at the concrete rejected string `"xyz"`. -/
theorem C6_witness : parse_float (some "xyz") = 0 :=
  C6_parse_float_total.2.2.2.2.1 "xyz" (by decide)

mutual
theorem mem_desc_elem :
    ∀ (c m : Element), m ∈ c.descendants →
      ∀ x ∈ descendantsList m.children, x ∈ c.descendants
  | .mk tg a cs, m, hm, x, hx => by
    simp only [Element.descendants] at hm ⊢
    exact mem_descList_trans cs m hm x hx

theorem mem_descList_trans :
    ∀ (l : ElementList) (m : Element), m ∈ descendantsList l →
      ∀ x ∈ descendantsList m.children, x ∈ descendantsList l
  | .cons c cs, m, hm, x, hx => by
    simp only [descendantsList, List.mem_cons, List.mem_append] at hm ⊢
    rcases hm with rfl | hm | hm
    · right
      left
      have : descendantsList m.children = m.descendants := by
        cases m
        rfl
      rw [this] at hx
      exact hx
    · right
      left
      exact mem_desc_elem c m hm x hx
    · right
      right
      exact mem_descList_trans cs m hm x hx
end

theorem find_mem_desc (e : Element) (tg : Tag) (m : Element)
    (h : e.find tg = some m) : m ∈ descendantsList e.children := by
  unfold Element.find Element.findall at h
  have h1 : m ∈ (descendantsList e.children).filter (fun d => d.tag = tg) :=
    List.mem_of_mem_head? (Option.mem_def.mpr h)
  exact (List.mem_filter.1 h1).1

theorem isFinite_exists {x : PyFloat} (h : x.isFinite = true) : ∃ q, x = .finite q := by
  cases x with
  | finite q => exact ⟨q, rfl⟩
  | inf => exact absurd h (by decide)
  | negInf => exact absurd h (by decide)
  | nan => exact absurd h (by decide)

theorem parsesFinite_attrD (root d : Element) (hfin : cantidadesFinite root)
    (hd : d ∈ descendantsList root.children) :
    ∃ q, parse_float (some (d.attrGetD "Cantidad" "")) = .finite q := by
  rcases hv : d.attrGet "Cantidad" with _ | v
  · have hdd : d.attrGetD "Cantidad" "" = "" := by
      simp [Element.attrGetD, hv]
    rw [hdd]
    exact ⟨0, by decide⟩
  · have hdd : d.attrGetD "Cantidad" "" = v := by
      simp [Element.attrGetD, hv]
    have hall := hfin d hd
    rw [hv] at hall
    rw [hdd]
    exact isFinite_exists hall

theorem process1_populated (root : Element) :
    populatedRecord (process_xml_format1_root root) := by
  unfold process_xml_format1_root populatedRecord
  rcases h1 : root.find conceptoTag with _ | c <;>
    rcases h2 : root.find mercanciaTag20 with _ | m <;>
      simp only [h1, h2] <;>
      exact ⟨⟨_, rfl⟩, ⟨_, rfl⟩, fcl_comp_labels _ _⟩

theorem process2_populated (root : Element) :
    populatedRecord (process_xml_format2_root root) := by
  unfold process_xml_format2_root populatedRecord
  rcases h1 : root.find conceptoTag with _ | c <;>
    rcases h2 : root.find mercanciaTag30 with _ | m
  · simp only [h1, h2]
    exact ⟨⟨_, rfl⟩, ⟨_, rfl⟩, fcl_comp_labels _ _⟩
  · rcases h3 : m.find cantidadTransportaTag30 with _ | ct <;>
      simp only [h1, h2, h3] <;>
      exact ⟨⟨_, rfl⟩, ⟨_, rfl⟩, fcl_comp_labels _ _⟩
  · simp only [h1, h2]
    exact ⟨⟨_, rfl⟩, ⟨_, rfl⟩, fcl_comp_labels _ _⟩
  · rcases h3 : m.find cantidadTransportaTag30 with _ | ct <;>
      simp only [h1, h2, h3] <;>
      exact ⟨⟨_, rfl⟩, ⟨_, rfl⟩, fcl_comp_labels _ _⟩

theorem process31_populated (root : Element) :
    populatedRecord (process_xml_format31_root root) := by
  unfold process_xml_format31_root populatedRecord
  rcases h1 : root.find conceptoTag with _ | c <;>
    rcases h2 : root.find mercanciaTag31 with _ | m
  · simp only [h1, h2]
    exact ⟨⟨_, rfl⟩, ⟨_, rfl⟩, fcl_comp_labels _ _⟩
  · rcases h3 : m.find cantidadTransportaTag31 with _ | ct <;>
      simp only [h1, h2, h3] <;>
      exact ⟨⟨_, rfl⟩, ⟨_, rfl⟩, fcl_comp_labels _ _⟩
  · simp only [h1, h2]
    exact ⟨⟨_, rfl⟩, ⟨_, rfl⟩, fcl_comp_labels _ _⟩
  · rcases h3 : m.find cantidadTransportaTag31 with _ | ct <;>
      simp only [h1, h2, h3] <;>
      exact ⟨⟨_, rfl⟩, ⟨_, rfl⟩, fcl_comp_labels _ _⟩

theorem process1_normalized (root : Element) (hfin : cantidadesFinite root) :
    normalizedRecord (process_xml_format1_root root) := by
  unfold process_xml_format1_root normalizedRecord
  rcases h1 : root.find conceptoTag with _ | c <;>
    rcases h2 : root.find mercanciaTag20 with _ | m <;>
      simp only [h1, h2]
  · exact ⟨⟨_, rfl, fcl_fst_threeDecimals _ _ 0 rfl⟩,
      ⟨_, rfl, fcl_snd_threeDecimals _ _ 0 rfl⟩, fcl_comp_labels _ _⟩
  · obtain ⟨qm, hqm⟩ := parsesFinite_attrD root m hfin (find_mem_desc root mercanciaTag20 m h2)
    exact ⟨⟨_, rfl, fcl_fst_threeDecimals _ _ 0 rfl⟩,
      ⟨_, rfl, fcl_snd_threeDecimals _ _ qm (by rw [parse_float_pyOr]; exact hqm)⟩,
      fcl_comp_labels _ _⟩
  · obtain ⟨qc, hqc⟩ := parsesFinite_attrD root c hfin (find_mem_desc root conceptoTag c h1)
    exact ⟨⟨_, rfl, fcl_fst_threeDecimals _ _ qc (by rw [parse_float_pyOr]; exact hqc)⟩,
      ⟨_, rfl, fcl_snd_threeDecimals _ _ 0 rfl⟩, fcl_comp_labels _ _⟩
  · obtain ⟨qc, hqc⟩ := parsesFinite_attrD root c hfin (find_mem_desc root conceptoTag c h1)
    obtain ⟨qm, hqm⟩ := parsesFinite_attrD root m hfin (find_mem_desc root mercanciaTag20 m h2)
    exact ⟨⟨_, rfl, fcl_fst_threeDecimals _ _ qc (by rw [parse_float_pyOr]; exact hqc)⟩,
      ⟨_, rfl, fcl_snd_threeDecimals _ _ qm (by rw [parse_float_pyOr]; exact hqm)⟩,
      fcl_comp_labels _ _⟩

theorem process2_normalized (root : Element) (hfin : cantidadesFinite root) :
    normalizedRecord (process_xml_format2_root root) := by
  unfold process_xml_format2_root normalizedRecord
  rcases h1 : root.find conceptoTag with _ | c <;>
    rcases h2 : root.find mercanciaTag30 with _ | m
  · simp only [h1, h2]
    exact ⟨⟨_, rfl, fcl_fst_threeDecimals _ _ 0 rfl⟩,
      ⟨_, rfl, fcl_snd_threeDecimals _ _ 0 rfl⟩, fcl_comp_labels _ _⟩
  · have hmd := find_mem_desc root mercanciaTag30 m h2
    rcases h3 : m.find cantidadTransportaTag30 with _ | ct <;>
      simp only [h1, h2, h3]
    · obtain ⟨qm, hqm⟩ := parsesFinite_attrD root m hfin hmd
      exact ⟨⟨_, rfl, fcl_fst_threeDecimals _ _ 0 rfl⟩,
        ⟨_, rfl, fcl_snd_threeDecimals _ _ qm hqm⟩, fcl_comp_labels _ _⟩
    · obtain ⟨qt, hqt⟩ := parsesFinite_attrD root ct hfin
        (mem_descList_trans root.children m hmd ct
          (find_mem_desc m cantidadTransportaTag30 ct h3))
      exact ⟨⟨_, rfl, fcl_fst_threeDecimals _ _ 0 rfl⟩,
        ⟨_, rfl, fcl_snd_threeDecimals _ _ qt hqt⟩, fcl_comp_labels _ _⟩
  · obtain ⟨qc, hqc⟩ := parsesFinite_attrD root c hfin (find_mem_desc root conceptoTag c h1)
    simp only [h1, h2]
    exact ⟨⟨_, rfl, fcl_fst_threeDecimals _ _ qc hqc⟩,
      ⟨_, rfl, fcl_snd_threeDecimals _ _ 0 rfl⟩, fcl_comp_labels _ _⟩
  · obtain ⟨qc, hqc⟩ := parsesFinite_attrD root c hfin (find_mem_desc root conceptoTag c h1)
    have hmd := find_mem_desc root mercanciaTag30 m h2
    rcases h3 : m.find cantidadTransportaTag30 with _ | ct <;>
      simp only [h1, h2, h3]
    · obtain ⟨qm, hqm⟩ := parsesFinite_attrD root m hfin hmd
      exact ⟨⟨_, rfl, fcl_fst_threeDecimals _ _ qc hqc⟩,
        ⟨_, rfl, fcl_snd_threeDecimals _ _ qm hqm⟩, fcl_comp_labels _ _⟩
    · obtain ⟨qt, hqt⟩ := parsesFinite_attrD root ct hfin
        (mem_descList_trans root.children m hmd ct
          (find_mem_desc m cantidadTransportaTag30 ct h3))
      exact ⟨⟨_, rfl, fcl_fst_threeDecimals _ _ qc hqc⟩,
        ⟨_, rfl, fcl_snd_threeDecimals _ _ qt hqt⟩, fcl_comp_labels _ _⟩

theorem process31_normalized (root : Element) (hfin : cantidadesFinite root) :
    normalizedRecord (process_xml_format31_root root) := by
  unfold process_xml_format31_root normalizedRecord
  rcases h1 : root.find conceptoTag with _ | c <;>
    rcases h2 : root.find mercanciaTag31 with _ | m
  · simp only [h1, h2]
    exact ⟨⟨_, rfl, fcl_fst_threeDecimals _ _ 0 rfl⟩,
      ⟨_, rfl, fcl_snd_threeDecimals _ _ 0 rfl⟩, fcl_comp_labels _ _⟩
  · have hmd := find_mem_desc root mercanciaTag31 m h2
    rcases h3 : m.find cantidadTransportaTag31 with _ | ct <;>
      simp only [h1, h2, h3]
    · obtain ⟨qm, hqm⟩ := parsesFinite_attrD root m hfin hmd
      exact ⟨⟨_, rfl, fcl_fst_threeDecimals _ _ 0 rfl⟩,
        ⟨_, rfl, fcl_snd_threeDecimals _ _ qm hqm⟩, fcl_comp_labels _ _⟩
    · obtain ⟨qt, hqt⟩ := parsesFinite_attrD root ct hfin
        (mem_descList_trans root.children m hmd ct
          (find_mem_desc m cantidadTransportaTag31 ct h3))
      exact ⟨⟨_, rfl, fcl_fst_threeDecimals _ _ 0 rfl⟩,
        ⟨_, rfl, fcl_snd_threeDecimals _ _ qt hqt⟩, fcl_comp_labels _ _⟩
  · obtain ⟨qc, hqc⟩ := parsesFinite_attrD root c hfin (find_mem_desc root conceptoTag c h1)
    simp only [h1, h2]
    exact ⟨⟨_, rfl, fcl_fst_threeDecimals _ _ qc hqc⟩,
      ⟨_, rfl, fcl_snd_threeDecimals _ _ 0 rfl⟩, fcl_comp_labels _ _⟩
  · obtain ⟨qc, hqc⟩ := parsesFinite_attrD root c hfin (find_mem_desc root conceptoTag c h1)
    have hmd := find_mem_desc root mercanciaTag31 m h2
    rcases h3 : m.find cantidadTransportaTag31 with _ | ct <;>
      simp only [h1, h2, h3]
    · obtain ⟨qm, hqm⟩ := parsesFinite_attrD root m hfin hmd
      exact ⟨⟨_, rfl, fcl_fst_threeDecimals _ _ qc hqc⟩,
        ⟨_, rfl, fcl_snd_threeDecimals _ _ qm hqm⟩, fcl_comp_labels _ _⟩
    · obtain ⟨qt, hqt⟩ := parsesFinite_attrD root ct hfin
        (mem_descList_trans root.children m hmd ct
          (find_mem_desc m cantidadTransportaTag31 ct h3))
      exact ⟨⟨_, rfl, fcl_fst_threeDecimals _ _ qc hqc⟩,
        ⟨_, rfl, fcl_snd_threeDecimals _ _ qt hqt⟩, fcl_comp_labels _ _⟩

/-- C5 counterexample: the frozen claim promises 3-decimal quantity strings
for every parsed document, but on a document whose merchandise `Cantidad`
attribute carries the spelling `"inf"` — which `float()` accepts as
positive infinity — the V1 extractor's record stores the string `"inf"`,
and `"inf"` is not a 3-decimal numeral. -/
theorem C5_counterexample :
    (process_xml_format1_root docV1inf).litrosTransportada = some "inf" ∧
      ¬ hasThreeDecimals "inf" :=
  ⟨by decide, not_threeDecimals_inf⟩

/-- C5 amended: every record a variant extractor returns on a parsed
document has non-null quantity strings and one of the two comparison
labels — these three fields are always overwritten by the shared
normalisation step; and when every `Cantidad` attribute present in the
document parses to a finite float (missing attributes and non-numeric
strings included, since those coerce to `0.0`; only the infinity/NaN
spellings and overflowing literals are excluded, which flow through as
`inf`/`-inf`/`nan`, as the counterexample shows), the quantity strings are
moreover formatted to exactly three decimal places. -/
theorem C5_normalization_finite :
    ∀ root : Element,
      populatedRecord (process_xml_format1_root root) ∧
      populatedRecord (process_xml_format2_root root) ∧
      populatedRecord (process_xml_format31_root root) ∧
      (cantidadesFinite root →
        normalizedRecord (process_xml_format1_root root) ∧
        normalizedRecord (process_xml_format2_root root) ∧
        normalizedRecord (process_xml_format31_root root)) :=
  fun root => ⟨process1_populated root, process2_populated root, process31_populated root,
    fun hfin => ⟨process1_normalized root hfin, process2_normalized root hfin,
      process31_normalized root hfin⟩⟩

/-- C5 witness: the amended theorem applied to the concrete CartaPorte 2.0
document `docV1`, whose `Cantidad` attributes all parse finite. -/
theorem C5_witness :
    normalizedRecord (process_xml_format1_root docV1) :=
  ((C5_normalization_finite docV1).2.2.2 (by unfold cantidadesFinite; decide)).1

theorem process1_litros (root m : Element) (hm : root.find mercanciaTag20 = some m) :
    (process_xml_format1_root root).litrosTransportada =
      some (fmt3f (parse_float (some (m.attrGetD "Cantidad" "")))) := by
  unfold process_xml_format1_root
  rcases h1 : root.find conceptoTag with _ | c <;>
    simp only [h1, hm] <;>
    rw [format_and_compare_liters_eq] <;>
    simp [parse_float_pyOr]

theorem process2_litros_own (root m : Element) (hm : root.find mercanciaTag30 = some m)
    (hct : m.find cantidadTransportaTag30 = none) :
    (process_xml_format2_root root).litrosTransportada =
      some (fmt3f (parse_float (some (m.attrGetD "Cantidad" "")))) := by
  unfold process_xml_format2_root
  rcases h1 : root.find conceptoTag with _ | c <;>
    simp only [h1, hm, hct] <;>
    rw [format_and_compare_liters_eq] <;>
    simp

theorem process2_litros_nested (root m ct : Element) (hm : root.find mercanciaTag30 = some m)
    (hct : m.find cantidadTransportaTag30 = some ct) :
    (process_xml_format2_root root).litrosTransportada =
      some (fmt3f (parse_float (some (ct.attrGetD "Cantidad" "")))) := by
  unfold process_xml_format2_root
  rcases h1 : root.find conceptoTag with _ | c <;>
    simp only [h1, hm, hct] <;>
    rw [format_and_compare_liters_eq] <;>
    simp

theorem process31_litros_own (root m : Element) (hm : root.find mercanciaTag31 = some m)
    (hct : m.find cantidadTransportaTag31 = none) :
    (process_xml_format31_root root).litrosTransportada =
      some (fmt3f (parse_float (some (m.attrGetD "Cantidad" "")))) := by
  unfold process_xml_format31_root
  rcases h1 : root.find conceptoTag with _ | c <;>
    simp only [h1, hm, hct] <;>
    rw [format_and_compare_liters_eq] <;>
    simp

theorem process31_litros_nested (root m ct : Element) (hm : root.find mercanciaTag31 = some m)
    (hct : m.find cantidadTransportaTag31 = some ct) :
    (process_xml_format31_root root).litrosTransportada =
      some (fmt3f (parse_float (some (ct.attrGetD "Cantidad" "")))) := by
  unfold process_xml_format31_root
  rcases h1 : root.find conceptoTag with _ | c <;>
    simp only [h1, hm, hct] <;>
    rw [format_and_compare_liters_eq] <;>
    simp

/-- C2: the V1 extractor takes the transported quantity from the
merchandise element's own `Cantidad` attribute; the V2 and V3 extractors
take it from a nested `CantidadTransporta` element's `Cantidad` attribute
when such an element is present and fall back to the merchandise element's
own attribute otherwise.  Concretely, own `Cantidad="50"` with no nested
element yields `"50.000"`, and a nested element with `Cantidad="75"` yields
`"75.000"`, for both V2 and V3. -/
theorem C2_transported_quantity_policy :
    (∀ root m : Element, root.find mercanciaTag20 = some m →
      (process_xml_format1_root root).litrosTransportada =
        some (fmt3f (parse_float (some (m.attrGetD "Cantidad" ""))))) ∧
    (∀ root m : Element, root.find mercanciaTag30 = some m →
      (m.find cantidadTransportaTag30 = none →
        (process_xml_format2_root root).litrosTransportada =
          some (fmt3f (parse_float (some (m.attrGetD "Cantidad" ""))))) ∧
      (∀ ct, m.find cantidadTransportaTag30 = some ct →
        (process_xml_format2_root root).litrosTransportada =
          some (fmt3f (parse_float (some (ct.attrGetD "Cantidad" "")))))) ∧
    (∀ root m : Element, root.find mercanciaTag31 = some m →
      (m.find cantidadTransportaTag31 = none →
        (process_xml_format31_root root).litrosTransportada =
          some (fmt3f (parse_float (some (m.attrGetD "Cantidad" ""))))) ∧
      (∀ ct, m.find cantidadTransportaTag31 = some ct →
        (process_xml_format31_root root).litrosTransportada =
          some (fmt3f (parse_float (some (ct.attrGetD "Cantidad" "")))))) ∧
    (process_xml_format2_root docV2own).litrosTransportada = some "50.000" ∧
    (process_xml_format2_root docV2nested).litrosTransportada = some "75.000" ∧
    (process_xml_format31_root docV31own).litrosTransportada = some "50.000" ∧
    (process_xml_format31_root docV31nested).litrosTransportada = some "75.000" := by
  refine ⟨fun root m hm => process1_litros root m hm,
    fun root m hm => ⟨fun hct => process2_litros_own root m hm hct,
      fun ct hct => process2_litros_nested root m ct hm hct⟩,
    fun root m hm => ⟨fun hct => process31_litros_own root m hm hct,
      fun ct hct => process31_litros_nested root m ct hm hct⟩,
    by decide, by decide, by decide, by decide⟩

/-- C2 witness: the V2 fallback clause applied to the concrete document
whose merchandise element carries its own `Cantidad="50"` and no nested
breakdown. -/
theorem C2_witness :
    (process_xml_format2_root docV2own).litrosTransportada =
      some (fmt3f (parse_float (some ((Element.mk mercanciaTag30
        [("BienesTransp", "15101515"), ("Cantidad", "50")] .nil).attrGetD "Cantidad" "")))) :=
  ((C2_transported_quantity_policy.2.1 docV2own
    (Element.mk mercanciaTag30 [("BienesTransp", "15101515"), ("Cantidad", "50")] .nil)
    (by rfl)).1 (by rfl))

theorem identify_format_wf (root : Element) :
    identify_format (.wellFormed root) =
      .ok (if (root.findall mercanciaTag20).isEmpty = false then some .format1
        else if (root.findall mercanciaTag30).isEmpty = false then some .format2
        else if (root.findall mercanciaTag31).isEmpty = false then some .format31
        else none) := by
  by_cases h20 : (root.findall mercanciaTag20).isEmpty = false <;>
    by_cases h30 : (root.findall mercanciaTag30).isEmpty = false <;>
      by_cases h31 : (root.findall mercanciaTag31).isEmpty = false <;>
        simp [identify_format, ET_parse, h20, h30, h31, bind, Except.bind, pure, Except.pure]

theorem process_file_wf (root : Element) :
    process_file_based_on_format (.wellFormed root) =
      .ok (if (root.findall mercanciaTag20).isEmpty = false then
          some (process_xml_format1_root root)
        else if (root.findall mercanciaTag30).isEmpty = false then
          some (process_xml_format2_root root)
        else if (root.findall mercanciaTag31).isEmpty = false then
          some (process_xml_format31_root root)
        else none) := by
  by_cases h20 : (root.findall mercanciaTag20).isEmpty = false <;>
    by_cases h30 : (root.findall mercanciaTag30).isEmpty = false <;>
      by_cases h31 : (root.findall mercanciaTag31).isEmpty = false <;>
        simp [process_file_based_on_format, identify_format, process_xml_format1,
          process_xml_format2, process_xml_format31, ET_parse, h20, h30, h31, bind,
          Except.bind, pure, Except.pure]

/-- C1: classification checks the three namespaces in the fixed order
V1 (CartaPorte20), then V2 (CartaPorte30), then V3 (CartaPorte31),
returning the first variant whose namespaced `Mercancia` is present and
`none` when none is present; dispatch returns `none` exactly when
classification is unrecognised and otherwise the matching extractor's
record. -/
theorem C1_classification_dispatch :
    ∀ root : Element,
      (identify_format (.wellFormed root) = .ok (some .format1) ↔
        root.findall mercanciaTag20 ≠ []) ∧
      (identify_format (.wellFormed root) = .ok (some .format2) ↔
        root.findall mercanciaTag20 = [] ∧ root.findall mercanciaTag30 ≠ []) ∧
      (identify_format (.wellFormed root) = .ok (some .format31) ↔
        root.findall mercanciaTag20 = [] ∧ root.findall mercanciaTag30 = [] ∧
          root.findall mercanciaTag31 ≠ []) ∧
      (identify_format (.wellFormed root) = .ok none ↔
        root.findall mercanciaTag20 = [] ∧ root.findall mercanciaTag30 = [] ∧
          root.findall mercanciaTag31 = []) ∧
      (process_file_based_on_format (.wellFormed root) = .ok none ↔
        identify_format (.wellFormed root) = .ok none) ∧
      (identify_format (.wellFormed root) = .ok (some .format1) →
        process_file_based_on_format (.wellFormed root) =
          .ok (some (process_xml_format1_root root))) ∧
      (identify_format (.wellFormed root) = .ok (some .format2) →
        process_file_based_on_format (.wellFormed root) =
          .ok (some (process_xml_format2_root root))) ∧
      (identify_format (.wellFormed root) = .ok (some .format31) →
        process_file_based_on_format (.wellFormed root) =
          .ok (some (process_xml_format31_root root))) := by
  intro root
  have hid := identify_format_wf root
  have hpf := process_file_wf root
  by_cases h20 : (root.findall mercanciaTag20).isEmpty = false
  · rw [if_pos h20] at hid hpf
    have hne20 : root.findall mercanciaTag20 ≠ [] := List.isEmpty_eq_false.mp h20
    refine ⟨?_, ?_, ?_, ?_, ?_, ?_, ?_, ?_⟩ <;> simp [hid, hpf, hne20]
  · rw [if_neg h20] at hid hpf
    simp only [List.isEmpty_eq_false, not_not] at h20
    by_cases h30 : (root.findall mercanciaTag30).isEmpty = false
    · rw [if_pos h30] at hid hpf
      have hne30 : root.findall mercanciaTag30 ≠ [] := List.isEmpty_eq_false.mp h30
      refine ⟨?_, ?_, ?_, ?_, ?_, ?_, ?_, ?_⟩ <;> simp [hid, hpf, h20, hne30]
    · rw [if_neg h30] at hid hpf
      simp only [List.isEmpty_eq_false, not_not] at h30
      by_cases h31 : (root.findall mercanciaTag31).isEmpty = false
      · rw [if_pos h31] at hid hpf
        have hne31 : root.findall mercanciaTag31 ≠ [] := List.isEmpty_eq_false.mp h31
        refine ⟨?_, ?_, ?_, ?_, ?_, ?_, ?_, ?_⟩ <;> simp [hid, hpf, h20, h30, hne31]
      · rw [if_neg h31] at hid hpf
        simp only [List.isEmpty_eq_false, not_not] at h31
        refine ⟨?_, ?_, ?_, ?_, ?_, ?_, ?_, ?_⟩ <;> simp [hid, hpf, h20, h30, h31]

/-- C1 witness: the V1 clause of the dispatch applied to the concrete
CartaPorte 2.0 sample document. -/
theorem C1_witness :
    process_file_based_on_format (.wellFormed docV1) =
      .ok (some (process_xml_format1_root docV1)) :=
  (C1_classification_dispatch docV1).2.2.2.2.2.1 (by rfl)

theorem find_of_findall_ne (root : Element) (t : Tag) (h : root.findall t ≠ []) :
    ∃ m, root.find t = some m := by
  cases hl : root.findall t with
  | nil => exact absurd hl h
  | cons a l => exact ⟨a, by simp [Element.find, hl]⟩

theorem process1_clave (root m : Element) (hm : root.find mercanciaTag20 = some m) :
    (process_xml_format1_root root).claveSAT = some (m.attrGetD "BienesTransp" "") ∧
    (process_xml_format1_root root).combustible =
      map_clave_to_combustible (m.attrGetD "BienesTransp" "") := by
  unfold process_xml_format1_root
  rcases h1 : root.find conceptoTag with _ | c <;>
    simp only [h1, hm] <;>
    exact ⟨by first | rfl | trivial, by first | rfl | trivial⟩

theorem process2_clave (root m : Element) (hm : root.find mercanciaTag30 = some m) :
    (process_xml_format2_root root).claveSAT = some (m.attrGetD "BienesTransp" "") ∧
    (process_xml_format2_root root).combustible =
      map_clave_to_combustible (m.attrGetD "BienesTransp" "") := by
  unfold process_xml_format2_root
  rcases h1 : root.find conceptoTag with _ | c <;>
    rcases h3 : m.find cantidadTransportaTag30 with _ | ct <;>
      simp only [h1, hm, h3] <;>
      exact ⟨by first | rfl | trivial, by first | rfl | trivial⟩

theorem process31_clave (root m : Element) (hm : root.find mercanciaTag31 = some m) :
    (process_xml_format31_root root).claveSAT = some (m.attrGetD "BienesTransp" "") ∧
    (process_xml_format31_root root).combustible =
      map_clave_to_combustible (m.attrGetD "BienesTransp" "") := by
  unfold process_xml_format31_root
  rcases h1 : root.find conceptoTag with _ | c <;>
    rcases h3 : m.find cantidadTransportaTag31 with _ | ct <;>
      simp only [h1, hm, h3] <;>
      exact ⟨by first | rfl | trivial, by first | rfl | trivial⟩

/-- C10 (implicit): whenever dispatch returns a record, the record's
`Clave SAT` is a (possibly empty) string, never absent, and `Combustible`
is the fuel mapper's output on it — classification guaranteed a merchandise
element in the matching namespace, so the extractor's own search cannot
fail. -/
theorem C10_clave_sat_present :
    ∀ (file : XmlFile) (r : RecordData),
      process_file_based_on_format file = .ok (some r) →
      ∃ s : String, r.claveSAT = some s ∧ r.combustible = map_clave_to_combustible s := by
  intro file r h
  cases file with
  | malformed =>
    simp [process_file_based_on_format, identify_format, ET_parse, bind, Except.bind] at h
  | wellFormed root =>
    rw [process_file_wf] at h
    by_cases h20 : (root.findall mercanciaTag20).isEmpty = false
    · rw [if_pos h20] at h
      simp only [Except.ok.injEq, Option.some.injEq] at h
      subst h
      obtain ⟨m, hm⟩ := find_of_findall_ne root mercanciaTag20 (List.isEmpty_eq_false.mp h20)
      obtain ⟨hc1, hc2⟩ := process1_clave root m hm
      exact ⟨m.attrGetD "BienesTransp" "", hc1, hc2⟩
    · rw [if_neg h20] at h
      by_cases h30 : (root.findall mercanciaTag30).isEmpty = false
      · rw [if_pos h30] at h
        simp only [Except.ok.injEq, Option.some.injEq] at h
        subst h
        obtain ⟨m, hm⟩ := find_of_findall_ne root mercanciaTag30 (List.isEmpty_eq_false.mp h30)
        obtain ⟨hc1, hc2⟩ := process2_clave root m hm
        exact ⟨m.attrGetD "BienesTransp" "", hc1, hc2⟩
      · rw [if_neg h30] at h
        by_cases h31 : (root.findall mercanciaTag31).isEmpty = false
        · rw [if_pos h31] at h
          simp only [Except.ok.injEq, Option.some.injEq] at h
          subst h
          obtain ⟨m, hm⟩ := find_of_findall_ne root mercanciaTag31 (List.isEmpty_eq_false.mp h31)
          obtain ⟨hc1, hc2⟩ := process31_clave root m hm
          exact ⟨m.attrGetD "BienesTransp" "", hc1, hc2⟩
        · rw [if_neg h31] at h
          simp at h

/-- C10 witness: applied to the concrete CartaPorte 2.0 sample document
and its extracted record. -/
theorem C10_witness :
    ∃ s : String, (process_xml_format1_root docV1).claveSAT = some s ∧
      (process_xml_format1_root docV1).combustible = map_clave_to_combustible s :=
  C10_clave_sat_present (.wellFormed docV1) (process_xml_format1_root docV1) (by rfl)

/-- C8: `extract_common_data` reads `Fecha`, `Serie`, `Folio` from the root
element's attributes; a `Fecha` that fails strict ISO-8601 parsing (or is
missing altogether) leaves the emission date absent without raising;
`Periodo` is the month number of the parsed date rendered as a string and
the empty string when the date is absent; `Serie` and `Folio` default to
the empty string when missing and are copied verbatim otherwise. -/
theorem C8_common_header_extraction :
    ∀ root : Element,
      (datetime_fromisoformat (root.attrGetD "Fecha" "") = none →
        (extract_common_data root).fechaEmision = none ∧
          (extract_common_data root).periodo = "") ∧
      (∀ dt, datetime_fromisoformat (root.attrGetD "Fecha" "") = some dt →
        (extract_common_data root).fechaEmision = some dt ∧
          (extract_common_data root).periodo = toString dt.month) ∧
      (root.attrGet "Fecha" = none → (extract_common_data root).fechaEmision = none) ∧
      (root.attrGet "Serie" = none → (extract_common_data root).serie = "") ∧
      (∀ s, root.attrGet "Serie" = some s → (extract_common_data root).serie = s) ∧
      (root.attrGet "Folio" = none → (extract_common_data root).folio = "") ∧
      (∀ s, root.attrGet "Folio" = some s → (extract_common_data root).folio = s) := by
  intro root
  refine ⟨?_, ?_, ?_, ?_, ?_, ?_, ?_⟩
  · intro h
    unfold extract_common_data
    simp [h]
  · intro dt h
    unfold extract_common_data
    simp [h]
  · intro h
    unfold extract_common_data
    simp [Element.attrGetD, h]
    decide
  · intro h
    unfold extract_common_data
    simp [Element.attrGetD, h]
  · intro s h
    unfold extract_common_data
    simp [Element.attrGetD, h]
  · intro h
    unfold extract_common_data
    simp [Element.attrGetD, h]
  · intro s h
    unfold extract_common_data
    simp [Element.attrGetD, h]

/-- C8 witness: the header clauses applied to the concrete document dated
`2023-03-01`. -/
theorem C8_witness :
    (extract_common_data docPlain).fechaEmision = some ⟨2023, 3, 1, 0, 0, 0⟩ ∧
      (extract_common_data docPlain).periodo =
        toString (PyDateTime.mk 2023 3 1 0 0 0).month :=
  (C8_common_header_extraction docPlain).2.1 ⟨2023, 3, 1, 0, 0, 0⟩ (by decide)

/-- C4: the malformed-XML parse failure is the only error raised at the
per-document boundary — classification, each variant extractor and the
dispatcher return the `ParseError` exactly on a malformed file and succeed
on every parsed one — the batch loop catches it and continues with the
remaining documents, and a missing (`None`) or non-numeric quantity value
is coerced to `0.0` rather than raised. -/
theorem C4_error_taxonomy :
    (∀ file : XmlFile,
      (identify_format file = .error .malformedXML ↔ file = .malformed) ∧
      (process_xml_format1 file = .error .malformedXML ↔ file = .malformed) ∧
      (process_xml_format2 file = .error .malformedXML ↔ file = .malformed) ∧
      (process_xml_format31 file = .error .malformedXML ↔ file = .malformed) ∧
      (process_file_based_on_format file = .error .malformedXML ↔ file = .malformed)) ∧
    (∀ (name : String) (rest : List (String × XmlFile)) (pdfs : List String),
      batchRows ((name, .malformed) :: rest) pdfs = batchRows rest pdfs) ∧
    parse_float none = 0 ∧
    (∀ s : String, pyFloatOfString s = none → parse_float (some s) = 0) := by
  refine ⟨?_, ?_, by decide, ?_⟩
  · intro file
    cases file with
    | malformed =>
      refine ⟨?_, ?_, ?_, ?_, ?_⟩ <;>
        simp [identify_format, process_xml_format1, process_xml_format2, process_xml_format31,
          process_file_based_on_format, ET_parse, bind, Except.bind]
    | wellFormed root =>
      have hid := identify_format_wf root
      have hpf := process_file_wf root
      refine ⟨?_, ?_, ?_, ?_, ?_⟩ <;>
        simp [hid, hpf, process_xml_format1, process_xml_format2, process_xml_format31,
          ET_parse, bind, Except.bind, pure, Except.pure]
  · intro name rest pdfs
    simp [batchRows, process_file_based_on_format, identify_format, ET_parse, bind, Except.bind]
  · intro s h
    simp [parse_float, h]

/-- C4 witness: the coercion clause applied to a concrete non-numeric
string, and the skip clause applied to a concrete one-element batch. -/
theorem C4_witness :
    parse_float (some "not-a-number") = 0 ∧
      batchRows [("bad.xml", .malformed)] [] = batchRows [] [] :=
  ⟨C4_error_taxonomy.2.2.2 "not-a-number" (by decide),
    C4_error_taxonomy.2.1 "bad.xml" [] []⟩

/-- C9: the batch result holds one record per recognised, successfully
parsed document (a parse failure or an unrecognised document contributes
nothing), the rows are sorted by emission date ascending with absent dates
last, and the emission-date column is then dropped; on documents dated
2023-05-01, 2023-01-01 and an unparseable date the output order is
[January, May, unparseable-last]. -/
theorem C9_batch_ordering :
    (∀ (uploaded : List (String × XmlFile)) (pdfs : List String),
      ∃ rows : List SortRow,
        List.Perm rows ((batchRows uploaded pdfs).map toSortRow) ∧
        List.Sorted rowLe rows ∧
        process_uploaded_files uploaded pdfs = rows.map dropFecha) ∧
    (∀ (name : String) (file : XmlFile) (rest : List (String × XmlFile))
        (pdfs : List String),
      (∀ r, process_file_based_on_format file = .ok (some r) →
        batchRows ((name, file) :: rest) pdfs =
          ⟨r, name, identify_pdf name pdfs⟩ :: batchRows rest pdfs) ∧
      (process_file_based_on_format file = .ok none →
        batchRows ((name, file) :: rest) pdfs = batchRows rest pdfs) ∧
      (process_file_based_on_format file = .error .malformedXML →
        batchRows ((name, file) :: rest) pdfs = batchRows rest pdfs)) ∧
    (process_uploaded_files
        [("may.xml", .wellFormed docV1), ("bad.xml", .malformed),
         ("plain.xml", .wellFormed docPlain), ("jan.xml", .wellFormed docV2own),
         ("nodate.xml", .wellFormed docV31nested)] ["jan.pdf"]).map
      (fun r => r.xmlFile) = ["jan.xml", "may.xml", "nodate.xml"] := by
  refine ⟨?_, ?_, by decide⟩
  · intro uploaded pdfs
    exact ⟨List.insertionSort rowLe ((batchRows uploaded pdfs).map toSortRow),
      List.perm_insertionSort rowLe _, List.sorted_insertionSort rowLe _, rfl⟩
  · intro name file rest pdfs
    refine ⟨?_, ?_, ?_⟩
    · intro r h
      simp [batchRows, h]
    · intro h
      simp [batchRows, h]
    · intro h
      simp [batchRows, h]

/-- C9 witness: the skip clause applied to a concrete unrecognised
document. -/
theorem C9_witness :
    batchRows [("plain.xml", .wellFormed docPlain)] [] = batchRows [] [] :=
  (C9_batch_ordering.2.1 "plain.xml" (.wellFormed docPlain) [] []).2.1 (by rfl)

/-! Namespace-substitution machinery for the extractor-equivalence claim. -/

theorem substNS_tag (f t : String) (e : Element) :
    (substNS f t e).tag = renameTag f t e.tag := by
  cases e
  rfl

theorem substNS_attrib (f t : String) (e : Element) :
    (substNS f t e).attrib = e.attrib := by
  cases e
  rfl

theorem substNS_children (f t : String) (e : Element) :
    (substNS f t e).children = substNSList f t e.children := by
  cases e
  rfl

theorem substNS_attrGet (f t : String) (e : Element) (k : String) :
    (substNS f t e).attrGet k = e.attrGet k := by
  simp [Element.attrGet, substNS_attrib]

theorem substNS_attrGetD (f t : String) (e : Element) (k d : String) :
    (substNS f t e).attrGetD k d = e.attrGetD k d := by
  simp [Element.attrGetD, substNS_attrGet]

mutual
theorem descendants_subst (f t : String) :
    ∀ e : Element, (substNS f t e).descendants = e.descendants.map (substNS f t)
  | .mk tg a cs => by
    simp only [substNS, Element.descendants]
    exact descList_subst f t cs

theorem descList_subst (f t : String) :
    ∀ l : ElementList,
      descendantsList (substNSList f t l) = (descendantsList l).map (substNS f t)
  | .nil => rfl
  | .cons c cs => by
    simp only [substNSList, descendantsList, List.map_cons, List.map_append]
    rw [descendants_subst f t c, descList_subst f t cs]
end

theorem findall_subst_other (f t : String) (e : Element) (tg : Tag)
    (hf : tg.ns ≠ f) (ht : tg.ns ≠ t) :
    (substNS f t e).findall tg = (e.findall tg).map (substNS f t) := by
  unfold Element.findall
  rw [substNS_children, descList_subst, List.filter_map]
  refine congrArg _ (List.filter_congr ?_)
  intro d _
  simp only [Function.comp_apply, substNS_tag, renameTag]
  by_cases hd : d.tag.ns = f
  · rw [if_pos hd]
    have h1 : (⟨t, d.tag.name⟩ : Tag) ≠ tg := by
      intro he
      exact ht (by rw [← he])
    have h2 : d.tag ≠ tg := by
      intro he
      exact hf (by rw [← he, hd])
    simp [h1, h2]
  · rw [if_neg hd]

theorem findall_subst_target (f t : String) (e : Element) (nm : String)
    (havoid : ∀ d ∈ descendantsList e.children, d.tag.ns ≠ t) :
    (substNS f t e).findall ⟨t, nm⟩ = (e.findall ⟨f, nm⟩).map (substNS f t) := by
  unfold Element.findall
  rw [substNS_children, descList_subst, List.filter_map]
  refine congrArg _ (List.filter_congr ?_)
  intro d hd
  simp only [Function.comp_apply, substNS_tag, renameTag]
  by_cases hns : d.tag.ns = f
  · rw [if_pos hns]
    have : ((⟨t, d.tag.name⟩ : Tag) = ⟨t, nm⟩) ↔ (d.tag = ⟨f, nm⟩) := by
      constructor
      · intro he
        have : d.tag.name = nm := congrArg Tag.name he
        cases htag : d.tag
        simp only [htag] at hns this
        simp [hns, this]
      · intro he
        rw [he]
    simp [this]
  · rw [if_neg hns]
    have h1 : d.tag ≠ ⟨t, nm⟩ := by
      intro he
      exact havoid d hd (by rw [he])
    have h2 : d.tag ≠ ⟨f, nm⟩ := by
      intro he
      exact hns (by rw [he])
    simp [h1, h2]

theorem find_subst_other (f t : String) (e : Element) (tg : Tag)
    (hf : tg.ns ≠ f) (ht : tg.ns ≠ t) :
    (substNS f t e).find tg = (e.find tg).map (substNS f t) := by
  simp [Element.find, findall_subst_other f t e tg hf ht, List.head?_map]

theorem find_subst_target (f t : String) (e : Element) (nm : String)
    (havoid : ∀ d ∈ descendantsList e.children, d.tag.ns ≠ t) :
    (substNS f t e).find ⟨t, nm⟩ = (e.find ⟨f, nm⟩).map (substNS f t) := by
  simp [Element.find, findall_subst_target f t e nm havoid, List.head?_map]

theorem avoidsNS_sub (t : String) (root m : Element)
    (h : avoidsNS t root) (hm : m ∈ descendantsList root.children) :
    ∀ d ∈ descendantsList m.children, d.tag.ns ≠ t :=
  fun d hd => h d (mem_descList_trans root.children m hm d hd)

theorem extract_common_subst (f t : String) (root : Element) :
    extract_common_data (substNS f t root) = extract_common_data root := by
  unfold extract_common_data
  simp [substNS_attrGetD]

theorem process31_subst_eq_process2 (root : Element) (h : avoidsNS nsCP31 root) :
    process_xml_format31_root (substNS nsCP30 nsCP31 root) = process_xml_format2_root root := by
  have hconc : (substNS nsCP30 nsCP31 root).find conceptoTag =
      (root.find conceptoTag).map (substNS nsCP30 nsCP31) :=
    find_subst_other _ _ _ _ (by decide) (by decide)
  have hmerc : (substNS nsCP30 nsCP31 root).find mercanciaTag31 =
      (root.find mercanciaTag30).map (substNS nsCP30 nsCP31) :=
    find_subst_target _ _ _ "Mercancia" h
  unfold process_xml_format31_root process_xml_format2_root
  rw [extract_common_subst, hconc, hmerc]
  rcases hc : root.find conceptoTag with _ | c <;>
    rcases hm : root.find mercanciaTag30 with _ | m
  · simp only [Option.map_none']
  · have hct : (substNS nsCP30 nsCP31 m).find cantidadTransportaTag31 =
        (m.find cantidadTransportaTag30).map (substNS nsCP30 nsCP31) :=
      find_subst_target _ _ _ "CantidadTransporta"
        (avoidsNS_sub _ root m h (find_mem_desc root mercanciaTag30 m hm))
    simp only [Option.map_none', Option.map_some']
    rw [hct]
    rcases hctm : m.find cantidadTransportaTag30 with _ | ct <;>
      simp only [Option.map_none', Option.map_some'] <;>
      simp [substNS_attrGetD]
  · simp only [Option.map_none', Option.map_some']
    simp [substNS_attrGetD]
  · have hct : (substNS nsCP30 nsCP31 m).find cantidadTransportaTag31 =
        (m.find cantidadTransportaTag30).map (substNS nsCP30 nsCP31) :=
      find_subst_target _ _ _ "CantidadTransporta"
        (avoidsNS_sub _ root m h (find_mem_desc root mercanciaTag30 m hm))
    simp only [Option.map_none', Option.map_some']
    rw [hct]
    rcases hctm : m.find cantidadTransportaTag30 with _ | ct <;>
      simp only [Option.map_none', Option.map_some'] <;>
      simp [substNS_attrGetD]

theorem process2_subst_agrees_process1 (root : Element) (h : avoidsNS nsCP30 root) :
    (process_xml_format2_root (substNS nsCP20 nsCP30 root)).fechaEmision =
      (process_xml_format1_root root).fechaEmision ∧
    (process_xml_format2_root (substNS nsCP20 nsCP30 root)).periodo =
      (process_xml_format1_root root).periodo ∧
    (process_xml_format2_root (substNS nsCP20 nsCP30 root)).serie =
      (process_xml_format1_root root).serie ∧
    (process_xml_format2_root (substNS nsCP20 nsCP30 root)).folio =
      (process_xml_format1_root root).folio ∧
    (process_xml_format2_root (substNS nsCP20 nsCP30 root)).claveSAT =
      (process_xml_format1_root root).claveSAT ∧
    (process_xml_format2_root (substNS nsCP20 nsCP30 root)).cantidadLitrosFacturada =
      (process_xml_format1_root root).cantidadLitrosFacturada ∧
    (process_xml_format2_root (substNS nsCP20 nsCP30 root)).combustible =
      (process_xml_format1_root root).combustible := by
  have hconc : (substNS nsCP20 nsCP30 root).find conceptoTag =
      (root.find conceptoTag).map (substNS nsCP20 nsCP30) :=
    find_subst_other _ _ _ _ (by decide) (by decide)
  have hmerc : (substNS nsCP20 nsCP30 root).find mercanciaTag30 =
      (root.find mercanciaTag20).map (substNS nsCP20 nsCP30) :=
    find_subst_target _ _ _ "Mercancia" h
  unfold process_xml_format2_root process_xml_format1_root
  rw [extract_common_subst, hconc, hmerc]
  rcases hc : root.find conceptoTag with _ | c <;>
    rcases hm : root.find mercanciaTag20 with _ | m
  · simp only [Option.map_none']
    simp [format_and_compare_liters_eq, parse_float_pyOr]
  · simp only [Option.map_none', Option.map_some']
    rcases hctm : (substNS nsCP20 nsCP30 m).find cantidadTransportaTag30 with _ | ct <;>
      simp only [Option.map_none', Option.map_some'] <;>
      simp [substNS_attrGetD, format_and_compare_liters_eq, parse_float_pyOr]
  · simp only [Option.map_none', Option.map_some']
    simp [substNS_attrGetD, format_and_compare_liters_eq, parse_float_pyOr]
  · simp only [Option.map_none', Option.map_some']
    rcases hctm : (substNS nsCP20 nsCP30 m).find cantidadTransportaTag30 with _ | ct <;>
      simp only [Option.map_none', Option.map_some'] <;>
      simp [substNS_attrGetD, format_and_compare_liters_eq, parse_float_pyOr]

/-- C7: the three extractors compute the same function up to namespace and
quantity-location policy.  On any document with no CartaPorte 3.1 content,
running the V3 extractor on the document with the 3.0 namespace substituted
by 3.1 returns exactly the V2 extractor's record; and on any document with
no CartaPorte 3.0 content, the V2 extractor on the 2.0→3.0-substituted
document agrees with the V1 extractor on every field except those derived
from the transported-quantity location policy (`Litros Transportada` and
`Comparacion`) — despite the `or`-versus-`dict.get` textual difference in
how unset values are passed to the normaliser. -/
theorem C7_extractor_equivalence :
    (∀ root : Element, avoidsNS nsCP31 root →
      process_xml_format31_root (substNS nsCP30 nsCP31 root) = process_xml_format2_root root) ∧
    (∀ root : Element, avoidsNS nsCP30 root →
      (process_xml_format2_root (substNS nsCP20 nsCP30 root)).fechaEmision =
        (process_xml_format1_root root).fechaEmision ∧
      (process_xml_format2_root (substNS nsCP20 nsCP30 root)).periodo =
        (process_xml_format1_root root).periodo ∧
      (process_xml_format2_root (substNS nsCP20 nsCP30 root)).serie =
        (process_xml_format1_root root).serie ∧
      (process_xml_format2_root (substNS nsCP20 nsCP30 root)).folio =
        (process_xml_format1_root root).folio ∧
      (process_xml_format2_root (substNS nsCP20 nsCP30 root)).claveSAT =
        (process_xml_format1_root root).claveSAT ∧
      (process_xml_format2_root (substNS nsCP20 nsCP30 root)).cantidadLitrosFacturada =
        (process_xml_format1_root root).cantidadLitrosFacturada ∧
      (process_xml_format2_root (substNS nsCP20 nsCP30 root)).combustible =
        (process_xml_format1_root root).combustible) :=
  ⟨process31_subst_eq_process2, process2_subst_agrees_process1⟩

/-- C7 witness: the V2/V3 equivalence applied to the concrete CartaPorte
3.0 document with a nested quantity breakdown. -/
theorem C7_witness :
    process_xml_format31_root (substNS nsCP30 nsCP31 docV2nested) =
      process_xml_format2_root docV2nested :=
  C7_extractor_equivalence.1 docV2nested (by unfold avoidsNS; decide)

end Carta
